import Mathlib

/-! shab-checker: cell reference parser and region diff

A shallow embedding of `pkg/sheets/sheets.go` (`parseCellRef`, `parseCol`,
`ParseCellRanges`) and `pkg/diff/diff.go` (`CompareSpreadsheetsAndGetDiff`,
`interfaceToString`).

Conventions of the embedding

* A Go `string` is a `List Char` (`GoString`): the texts are valid UTF-8, so
  ranging over a string visits exactly its characters.
* A Go `int` is a 64-bit two's complement integer, held in an `Int` and
  renormalised with `wrapInt` after every arithmetic step that can leave the
  range.
* The Unicode tables and the formatting of the Go standard library that the
  code reaches through `unicode.IsDigit`, `strings.ToUpper`,
  `strings.TrimSpace` and `fmt.Sprint` are fields of `Lib`; the ASCII and
  Latin-1 fast paths of those functions are written out.
* A run of `CompareSpreadsheetsAndGetDiff` ends in `Except.ok records` or in
  a `Fault`: an index out of range, or a loop that runs forever because its
  bound is the largest `int` (the counter wraps and the test `i <= hi` holds
  for every counter) and the body faults at no counter.
-/

set_option linter.unusedVariables false

deriving instance DecidableEq for Except

namespace ShabChecker

/-! ## Machine integers -/

/-- Largest value of a 64-bit `int`. -/
def intMax : Int := 9223372036854775807

/-- Smallest value of a 64-bit `int`. -/
def intMin : Int := -9223372036854775808

/-- Two's complement renormalisation of an integer result to 64 bits. -/
def wrapInt (x : Int) : Int :=
  (x + 9223372036854775808) % 18446744073709551616 - 9223372036854775808

/-! ## Strings and the standard library -/

/-- A Go string, as the sequence of its characters. -/
abbrev GoString := List Char

/-- The parts of the Go standard library that are table driven or format
values of a dynamic type `ν` other than string and bool. -/
structure Lib (ν : Type) where
  /-- Membership in `unicode.Digit` for characters above Latin-1. -/
  digitTable : Char → Bool
  /-- The upper case mapping `unicode.ToUpper` for characters above ASCII. -/
  upperTable : Char → Char
  /-- Membership in `unicode.White_Space` for characters above Latin-1. -/
  spaceTable : Char → Bool
  /-- The text `fmt.Sprint` prints for a value that is neither string nor bool. -/
  sprintOther : ν → GoString

/-- Decimal digit test on ASCII. -/
def isAsciiDigit (c : Char) : Bool := decide (48 ≤ c.toNat) && decide (c.toNat ≤ 57)

/-- `unicode.IsDigit`. -/
def isDigit {ν : Type} (L : Lib ν) (c : Char) : Bool :=
  if c.toNat ≤ 255 then isAsciiDigit c else L.digitTable c

/-- `unicode.ToUpper`. -/
def toUpperRune {ν : Type} (L : Lib ν) (c : Char) : Char :=
  if c.toNat ≤ 127 then
    (if 97 ≤ c.toNat ∧ c.toNat ≤ 122 then Char.ofNat (c.toNat - 32) else c)
  else L.upperTable c

/-- `strings.ToUpper`. -/
def ToUpper {ν : Type} (L : Lib ν) (s : GoString) : GoString := s.map (toUpperRune L)

/-- `unicode.IsSpace`. -/
def isSpace {ν : Type} (L : Lib ν) (c : Char) : Bool :=
  if c.toNat ≤ 255 then
    decide (c.toNat = 9 ∨ c.toNat = 10 ∨ c.toNat = 11 ∨ c.toNat = 12 ∨ c.toNat = 13
      ∨ c.toNat = 32 ∨ c.toNat = 133 ∨ c.toNat = 160)
  else L.spaceTable c

/-- `strings.TrimSpace`: leading and trailing white space removed. -/
def TrimSpace {ν : Type} (L : Lib ν) (s : GoString) : GoString :=
  (((s.dropWhile (isSpace L)).reverse).dropWhile (isSpace L)).reverse

/-- `strings.Split(s, sep)` for a one-character separator. -/
def Split (sep : Char) : GoString → List GoString
  | [] => [[]]
  | c :: cs =>
    if c = sep then [] :: Split sep cs
    else
      match Split sep cs with
      | [] => [[c]]
      | p :: ps => (c :: p) :: ps

/-- Value of a run of ASCII decimal digits continuing the value `acc`; `none`
when a character is not an ASCII decimal digit. -/
def digitsValue : GoString → Nat → Option Nat
  | [], acc => some acc
  | c :: cs, acc => if isAsciiDigit c then digitsValue cs (acc * 10 + (c.toNat - 48)) else none

/-- `strconv.Atoi` on 64-bit: an optional sign, then one or more ASCII decimal
digits, and a value inside the `int` range; `none` is the error result. -/
def Atoi (s : GoString) : Option Int :=
  match s with
  | [] => none
  | c :: cs =>
    if c = '-' then
      (match cs with
       | [] => none
       | _ :: _ =>
         match digitsValue cs 0 with
         | none => none
         | some n => if (n : Int) ≤ 9223372036854775808 then some (-(n : Int)) else none)
    else if c = '+' then
      (match cs with
       | [] => none
       | _ :: _ =>
         match digitsValue cs 0 with
         | none => none
         | some n => if (n : Int) ≤ intMax then some (n : Int) else none)
    else
      match digitsValue (c :: cs) 0 with
      | none => none
      | some n => if (n : Int) ≤ intMax then some (n : Int) else none

/-! ## pkg/sheets: the reference parser -/

/-- The errors `parseCellRef` and `ParseCellRanges` build with `fmt.Errorf`. -/
inductive ParseError where
  | invalidRowNumber
  | invalidColumnReference
  | invalidCellRangeFormat
  deriving DecidableEq, Repr

/-- `CellRange` of `pkg/sheets`. -/
structure CellRange where
  StartRow : Int
  EndRow : Int
  StartCol : Int
  EndCol : Int
  deriving DecidableEq, Repr

/-- `parseCol`: base-26 Horner evaluation with `int(char - 'A')` as digit. The
error result is always nil. -/
def parseCol (colPart : GoString) : Except ParseError Int :=
  .ok (colPart.foldl (fun col char => wrapInt (col * 26 + ((char.toNat : Int) - 65))) 0)

/-- The `for i, char := range cellRef` scan of `parseCellRef` up to the first
character with `unicode.IsDigit`: the text before it and the text from it on;
`none` when the loop ends without finding one. -/
def splitAtFirstDigit {ν : Type} (L : Lib ν) : GoString → Option (GoString × GoString)
  | [] => none
  | c :: cs =>
    if isDigit L c then some ([], c :: cs)
    else
      match splitAtFirstDigit L cs with
      | none => none
      | some (pre, suf) => some (c :: pre, suf)

/-- `parseCellRef`. The pair is the first and the second result, which every
caller binds to `row, col`. When no digit is found the function returns
`row - 1, col, nil` on its zero-valued named results. -/
def parseCellRef {ν : Type} (L : Lib ν) (sheetName cellRef : GoString) :
    Except ParseError (Int × Int) :=
  match splitAtFirstDigit L cellRef with
  | some (pre, rowStr) =>
    match Atoi rowStr with
    | none => .error .invalidRowNumber
    | some row =>
      match parseCol (ToUpper L pre) with
      | .error _ => .error .invalidColumnReference
      | .ok col => .ok (wrapInt (row - 1), col)
  | none => .ok (wrapInt (0 - 1), 0)

/-- The body of the `for _, c := range ranges` loop of `ParseCellRanges`: the
span of one range text. -/
def parseRangeText {ν : Type} (L : Lib ν) (sheetName c : GoString) :
    Except ParseError CellRange :=
  match Split ':' c with
  | [p0] =>
    (match parseCellRef L sheetName p0 with
     | .error e => .error e
     | .ok (row, col) => .ok ⟨row, row, col, col⟩)
  | [p0, p1] =>
    (match parseCellRef L sheetName p0 with
     | .error e => .error e
     | .ok (startRow, startCol) =>
       match parseCellRef L sheetName p1 with
       | .error e => .error e
       | .ok (endRow, endCol) => .ok ⟨startRow, endRow, startCol, endCol⟩)
  | _ => .error .invalidCellRangeFormat

/-- The loop of `ParseCellRanges` over the remaining texts, appending to
`parsedRanges`. -/
def parseRangesLoop {ν : Type} (L : Lib ν) (sheetName : GoString) :
    List GoString → List CellRange → Except ParseError (List CellRange)
  | [], parsedRanges => .ok parsedRanges
  | c :: rest, parsedRanges =>
    match parseRangeText L sheetName c with
    | .error e => .error e
    | .ok r => parseRangesLoop L sheetName rest (parsedRanges ++ [r])

/-- `ParseCellRanges`, with the parameter names of the source. -/
def ParseCellRanges {ν : Type} (L : Lib ν) (sheetName cellRange timeRange titleRange : GoString) :
    Except ParseError (List CellRange) :=
  parseRangesLoop L sheetName [cellRange, timeRange, titleRange] []

/-! ## pkg/config and pkg/diff: the data -/

/-- `PreDefinedCells` of `pkg/config`: the three range texts of one region. -/
structure PreDefinedCells where
  CellRange : GoString
  TitleRange : GoString
  TimeRange : GoString
  deriving DecidableEq, Repr

/-- A value of type `interface{}` in a grid: nil, a string, a bool, or a
value of another dynamic type `ν`. -/
inductive Value (ν : Type) where
  | nil
  | str (s : GoString)
  | bool (b : Bool)
  | other (x : ν)
  deriving DecidableEq, Repr

/-- A grid `[][]interface{}`. -/
abbrev Grid (ν : Type) := List (List (Value ν))

/-- `Cell` of `pkg/diff`, fields in declaration order. -/
structure Cell where
  Row : Int
  Col : Int
  Value : GoString
  Time : GoString
  Title : GoString
  deriving DecidableEq, Repr

/-- `ChangedCell` of `pkg/diff`: `Date`, the embedded `Cell`, `OldValue`. -/
structure ChangedCell where
  Date : GoString
  Cell : Cell
  OldValue : GoString
  deriving DecidableEq, Repr

/-- The ways a run does not return. -/
inductive Fault where
  /-- The run time panic `index out of range`. -/
  | indexOutOfRange
  /-- A loop that runs forever: its counter passed the largest `int` and
  wrapped to the smallest one, the test `i <= hi` holds for every counter, and
  the body faults at none. -/
  | counterWrap
  deriving DecidableEq, Repr

/-- `len(xs)` as an `int`. -/
def len {α : Type} (xs : List α) : Int := (xs.length : Int)

/-- The index expression `xs[i]`, which panics outside `0 <= i < len(xs)`. -/
def index {α : Type} (xs : List α) (i : Int) : Except Fault α :=
  if 0 ≤ i then
    match xs[i.toNat]? with
    | some x => .ok x
    | none => .error .indexOutOfRange
  else .error .indexOutOfRange

/-- `fmt.Sprint` of a non-nil value. -/
def Sprint {ν : Type} (L : Lib ν) : Value ν → GoString
  | .nil => "<nil>".toList
  | .str s => s
  | .bool true => "true".toList
  | .bool false => "false".toList
  | .other x => L.sprintOther x

/-- `interfaceToString`. -/
def interfaceToString {ν : Type} (L : Lib ν) (value : Value ν) : GoString :=
  match value with
  | .nil => []
  | v => TrimSpace L (Sprint L v)

/-! ## pkg/diff: the comparison -/

/-- The guard `row < len(sheet) && col < len(sheet[row])`, with the short
circuit of `&&`: `sheet[row]` is evaluated only when `row < len(sheet)`. -/
def cellGuard {ν : Type} (sheet : Grid ν) (row col : Int) : Except Fault Bool :=
  if row < len sheet then
    match index sheet row with
    | .error f => .error f
    | .ok r => .ok (decide (col < len r))
  else .ok false

/-- The expression `sheet[row][col]`. -/
def cellAt {ν : Type} (sheet : Grid ν) (row col : Int) : Except Fault (Value ν) :=
  match index sheet row with
  | .error f => .error f
  | .ok r => index r col

/-- The pattern `s := ""; if guard(r, c) { s = interfaceToString(sheet[r][c]) }`
used for `time` and `title`. -/
def guardedText {ν : Type} (L : Lib ν) (sheet : Grid ν) (row col : Int) : Except Fault GoString :=
  match cellGuard sheet row col with
  | .error f => .error f
  | .ok false => .ok []
  | .ok true =>
    match cellAt sheet row col with
    | .error f => .error f
    | .ok v => .ok (interfaceToString L v)

/-- The variables the loops update: the result slice and the lookup map
(`map[Cell]string`, kept as the list of its writes, latest first). -/
structure DiffState where
  changedCells : List ChangedCell
  sheet1Map : List (Cell × GoString)
  deriving DecidableEq, Repr

/-- The body of the inner loop of `CompareSpreadsheetsAndGetDiff` at
`(row, col)`; `cr1` and `cr2` are `cellRange[1]` and `cellRange[2]`. -/
def cellBody {ν : Type} (L : Lib ν) (sheet1 sheet2 : Grid ν) (sheetName : GoString)
    (cr1 cr2 : CellRange) (row col : Int) (st : DiffState) : Except Fault DiffState :=
  match cellGuard sheet1 row col with
  | .error f => .error f
  | .ok false => .ok st
  | .ok true =>
    match cellAt sheet1 row col with
    | .error f => .error f
    | .ok v =>
      let value := interfaceToString L v
      match guardedText L sheet1 cr2.StartRow cr2.StartCol with
      | .error f => .error f
      | .ok time =>
        match guardedText L sheet1 cr1.StartRow cr1.StartCol with
        | .error f => .error f
        | .ok title =>
          let cell : Cell := ⟨row, col, value, time, title⟩
          let sheet1Map := (cell, cell.Value) :: st.sheet1Map
          match cellGuard sheet2 row col with
          | .error f => .error f
          | .ok true =>
            (match cellAt sheet2 row col with
             | .error f => .error f
             | .ok old =>
               if interfaceToString L old ≠ cell.Value then
                 .ok ⟨st.changedCells ++ [⟨sheetName, cell, interfaceToString L old⟩], sheet1Map⟩
               else .ok ⟨st.changedCells, sheet1Map⟩)
          | .ok false => .ok ⟨st.changedCells ++ [⟨sheetName, cell, []⟩], sheet1Map⟩

/-- The body run `n` times in a row, at the counters `i`, `i + 1`, ...; the
first fault of the body ends the run. -/
def iterate {σ : Type} (body : Int → σ → Except Fault σ) : Nat → Int → σ → Except Fault σ
  | 0, _, s => .ok s
  | n + 1, i, s =>
    match body i s with
    | .error f => .error f
    | .ok s1 => iterate body n (i + 1) s1

/-- The loop `for ; i <= hi; i++ { body }` with `n = hi + 1 - i` iterations
left. After the body at the largest `int` the increment wraps the counter to
the smallest `int`; the bound is then the largest `int`, the test `i <= hi`
holds for every counter, and the loop goes on through all `2^64` values of the
counter, turn after turn, until the body faults. The bodies of this program
fault at a counter whatever the state (`cellBody_framed`), so the loop faults
exactly when the body faults within one full turn from the smallest `int`,
with the first fault of that turn; with no fault in a full turn the loop runs
forever, which is the fault `counterWrap`. -/
def loopFrom {σ : Type} (body : Int → σ → Except Fault σ) : Nat → Int → σ → Except Fault σ
  | 0, _, s => .ok s
  | n + 1, i, s =>
    match body i s with
    | .error f => .error f
    | .ok s1 =>
      if i = intMax then
        match iterate body 18446744073709551616 intMin s1 with
        | .error f => .error f
        | .ok _ => .error .counterWrap
      else loopFrom body n (i + 1) s1

/-- The loop `for i := lo; i <= hi; i++ { body }` over `int`s. -/
def forLoop {σ : Type} (lo hi : Int) (body : Int → σ → Except Fault σ) (s : σ) : Except Fault σ :=
  loopFrom body (hi + 1 - lo).toNat lo s

/-- The two nested loops over `cellRange[0]` for one parsed region. A list
`ParseCellRanges` returns has three spans (`ParseCellRanges_eq`); on any other
list the index expressions `cellRange[0]`, `cellRange[1]`, `cellRange[2]` would
panic, and that case is not reached from `CompareSpreadsheetsAndGetDiff`. -/
def regionBody {ν : Type} (L : Lib ν) (sheet1 sheet2 : Grid ν) (sheetName : GoString)
    (cellRange : List CellRange) (st : DiffState) : Except Fault DiffState :=
  match cellRange with
  | [cr0, cr1, cr2] =>
    forLoop cr0.StartRow cr0.EndRow
      (fun row => forLoop cr0.StartCol cr0.EndCol
        (fun col => cellBody L sheet1 sheet2 sheetName cr1 cr2 row col)) st
  | _ => .error .indexOutOfRange

/-- The loop `for _, cellConfig := range preDefinedCells`: a region whose
texts do not parse is logged and skipped. -/
def regionsLoop {ν : Type} (L : Lib ν) (sheet1 sheet2 : Grid ν) (sheetName : GoString) :
    List PreDefinedCells → DiffState → Except Fault DiffState
  | [], st => .ok st
  | cellConfig :: rest, st =>
    match ParseCellRanges L sheetName cellConfig.CellRange cellConfig.TitleRange
        cellConfig.TimeRange with
    | .error _ => regionsLoop L sheet1 sheet2 sheetName rest st
    | .ok cellRange =>
      match regionBody L sheet1 sheet2 sheetName cellRange st with
      | .error f => .error f
      | .ok st1 => regionsLoop L sheet1 sheet2 sheetName rest st1

/-- `CompareSpreadsheetsAndGetDiff`. -/
def CompareSpreadsheetsAndGetDiff {ν : Type} (L : Lib ν) (sheet1 sheet2 : Grid ν)
    (sheetName : GoString) (preDefinedCells : List PreDefinedCells) :
    Except Fault (List ChangedCell) :=
  match regionsLoop L sheet1 sheet2 sheetName preDefinedCells ⟨[], []⟩ with
  | .error f => .error f
  | .ok st => .ok st.changedCells

/-- A library instance for examples: no digits, spaces or case pairs beyond
Latin-1, and natural numbers as the only other dynamic values, printed in
decimal. -/
def asciiLib : Lib Nat where
  digitTable := fun _ => false
  upperTable := fun c => c
  spaceTable := fun _ => false
  sprintOther := fun n => Nat.toDigits 10 n


/-! ## Reference values, in the words of the specification -/

/-- ASCII letter, in either case. -/
def isAsciiLetter (c : Char) : Bool :=
  (decide (65 ≤ c.toNat) && decide (c.toNat ≤ 90)) || (decide (97 ≤ c.toNat) && decide (c.toNat ≤ 122))

/-- The digit of an ASCII letter after upper-casing: `letter - 'A'`. -/
def letterValue (c : Char) : Int :=
  if 97 ≤ c.toNat ∧ c.toNat ≤ 122 then (c.toNat : Int) - 97 else (c.toNat : Int) - 65

/-- The base-26 Horner value of a letter prefix, as a mathematical integer. -/
def hornerValue (p : GoString) : Int := p.foldl (fun acc c => acc * 26 + letterValue c) 0

/-- The value of a decimal digit string, as a mathematical integer. -/
def decimalValue (d : GoString) : Int := d.foldl (fun acc c => acc * 10 + ((c.toNat : Int) - 48)) 0

/-- The coordinate `(row, col)` is in bounds in `sheet`: the row exists and is
at least `col + 1` long. -/
def inBounds {ν : Type} (sheet : Grid ν) (row col : Int) : Bool :=
  decide (0 ≤ row) && decide (0 ≤ col) &&
    match sheet[row.toNat]? with
    | some r => decide (col < len r)
    | none => false

/-- The trimmed string form of the cell of `sheet` at `(row, col)`, and the
empty string when the coordinate is out of bounds. -/
def textAt {ν : Type} (L : Lib ν) (sheet : Grid ν) (row col : Int) : GoString :=
  if 0 ≤ row ∧ 0 ≤ col then
    match sheet[row.toNat]? with
    | some r =>
      (match r[col.toNat]? with
       | some v => interfaceToString L v
       | none => [])
    | none => []
  else []

/-- The records the specification lists for the coordinate `(row, col)` of a
region whose title span is `cr1` and whose time span is `cr2`: none when the
coordinate is out of bounds in `current`, one with an empty old value when it
is out of bounds in `previous`, one when the two trimmed strings differ. -/
def recordsAt {ν : Type} (L : Lib ν) (current previous : Grid ν) (sheetName : GoString)
    (cr1 cr2 : CellRange) (row col : Int) : List ChangedCell :=
  if inBounds current row col then
    let cell : Cell := ⟨row, col, textAt L current row col,
      textAt L current cr2.StartRow cr2.StartCol, textAt L current cr1.StartRow cr1.StartCol⟩
    if inBounds previous row col then
      if textAt L previous row col ≠ textAt L current row col then
        [⟨sheetName, cell, textAt L previous row col⟩]
      else []
    else [⟨sheetName, cell, []⟩]
  else []

/-- The `n` consecutive integers from `i` on, in ascending order. -/
def intsFrom : Nat → Int → List Int
  | 0, _ => []
  | n + 1, i => i :: intsFrom n (i + 1)

/-- The records of one region in row-major order, for parsed spans
`cr0` (values), `cr1` (title) and `cr2` (time). -/
def spanRecords {ν : Type} (L : Lib ν) (current previous : Grid ν) (sheetName : GoString)
    (cr0 cr1 cr2 : CellRange) : List ChangedCell :=
  (intsFrom (cr0.EndRow + 1 - cr0.StartRow).toNat cr0.StartRow).flatMap (fun row =>
    (intsFrom (cr0.EndCol + 1 - cr0.StartCol).toNat cr0.StartCol).flatMap (fun col =>
      recordsAt L current previous sheetName cr1 cr2 row col))

/-- The records of one configured region: those of its parsed spans, and none
when its texts do not parse. -/
def regionRecords {ν : Type} (L : Lib ν) (current previous : Grid ν) (sheetName : GoString)
    (cellConfig : PreDefinedCells) : List ChangedCell :=
  match parseRangeText L sheetName cellConfig.CellRange,
      parseRangeText L sheetName cellConfig.TitleRange,
      parseRangeText L sheetName cellConfig.TimeRange with
  | .ok cr0, .ok cr1, .ok cr2 => spanRecords L current previous sheetName cr0 cr1 cr2
  | _, _, _ => []

/-- The texts of a region parse: `ParseCellRanges` returns no error for them. -/
def parses {ν : Type} (L : Lib ν) (sheetName : GoString) (cellConfig : PreDefinedCells) : Bool :=
  match ParseCellRanges L sheetName cellConfig.CellRange cellConfig.TitleRange
      cellConfig.TimeRange with
  | .ok _ => true
  | .error _ => false

/-- The state `s` followed by the updates `d` made from the empty state: the
records of `d` appended, the map writes of `d` put in front. -/
def DiffState.app (s d : DiffState) : DiffState :=
  ⟨s.changedCells ++ d.changedCells, d.sheet1Map ++ s.sheet1Map⟩

/-- A loop body acts on a state as it acts on the empty state, with the
outcome appended. -/
def Framed (body : DiffState → Except Fault DiffState) : Prop :=
  ∀ s, body s =
    match body ⟨[], []⟩ with
    | .error f => .error f
    | .ok d => .ok (s.app d)

/-- All four coordinates of a span are non-negative. -/
def CellRange.NonNeg (cr : CellRange) : Prop :=
  0 ≤ cr.StartRow ∧ 0 ≤ cr.EndRow ∧ 0 ≤ cr.StartCol ∧ 0 ≤ cr.EndCol

/-- Every region of the list that parses has three spans with non-negative
coordinates. -/
def RegionsNonNeg {ν : Type} (L : Lib ν) (sheetName : GoString)
    (regions : List PreDefinedCells) : Prop :=
  ∀ cellConfig ∈ regions, ∀ cr0 cr1 cr2 : CellRange,
    parseRangeText L sheetName cellConfig.CellRange = .ok cr0 →
    parseRangeText L sheetName cellConfig.TitleRange = .ok cr1 →
    parseRangeText L sheetName cellConfig.TimeRange = .ok cr2 →
    cr0.NonNeg ∧ cr1.NonNeg ∧ cr2.NonNeg

/-- The value span of every region of the list that parses ends at a column
below the largest `int`. -/
def RegionsEndBelowMax {ν : Type} (L : Lib ν) (sheetName : GoString)
    (regions : List PreDefinedCells) : Prop :=
  ∀ cellConfig ∈ regions, ∀ cr0 : CellRange,
    parseRangeText L sheetName cellConfig.CellRange = .ok cr0 → cr0.EndCol < intMax

/-- The text `t` is the text `s` with its leading and trailing white space
removed: `s` is `t` between two runs of white space, and `t` neither starts
nor ends with white space. -/
def IsTrimOf {ν : Type} (L : Lib ν) (t s : GoString) : Prop :=
  ∃ pre post : GoString, s = pre ++ t ++ post
    ∧ (∀ c ∈ pre, isSpace L c = true) ∧ (∀ c ∈ post, isSpace L c = true)
    ∧ (∀ c, t.head? = some c → isSpace L c = false)
    ∧ (∀ c, t.getLast? = some c → isSpace L c = false)

/-- Strict lexicographic order of two records by `(Row, Col)`. -/
def lexLt (a b : ChangedCell) : Prop :=
  a.Cell.Row < b.Cell.Row ∨ (a.Cell.Row = b.Cell.Row ∧ a.Cell.Col < b.Cell.Col)

/-- The result of two runs in sequence: the records of the first followed by
those of the second, and the fault of the first run that has one. -/
def seqResults (a b : Except Fault (List ChangedCell)) : Except Fault (List ChangedCell) :=
  match a with
  | .error f => .error f
  | .ok x =>
    match b with
    | .error f => .error f
    | .ok y => .ok (x ++ y)

/-! ## Lemmas on machine integers and library functions -/

theorem wrapInt_of_range (x : Int) (h1 : intMin ≤ x) (h2 : x ≤ intMax) : wrapInt x = x := by
  unfold wrapInt; unfold intMin at h1; unfold intMax at h2; omega

theorem wrapInt_step (a b : Int) : wrapInt (wrapInt a * 26 + b) = wrapInt (a * 26 + b) := by
  unfold wrapInt; omega

theorem isDigit_of_ascii {ν : Type} (L : Lib ν) (c : Char) (h : isAsciiDigit c = true) :
    isDigit L c = true := by
  unfold isDigit
  have h2 : c.toNat ≤ 255 := by
    unfold isAsciiDigit at h
    simp only [Bool.and_eq_true, decide_eq_true_eq] at h
    omega
  simp [h2, h]

theorem isDigit_of_letter {ν : Type} (L : Lib ν) (c : Char) (h : isAsciiLetter c = true) :
    isDigit L c = false := by
  unfold isAsciiLetter at h
  simp only [Bool.or_eq_true, Bool.and_eq_true, decide_eq_true_eq] at h
  unfold isDigit isAsciiDigit
  have h2 : c.toNat ≤ 255 := by omega
  simp only [h2, if_true]
  simp only [Bool.and_eq_false_iff, decide_eq_false_iff_not]
  omega

theorem splitAtFirstDigit_append {ν : Type} (L : Lib ν) (pre : GoString) (d : Char)
    (rest : GoString) (hpre : ∀ c ∈ pre, isDigit L c = false) (hd : isDigit L d = true) :
    splitAtFirstDigit L (pre ++ d :: rest) = some (pre, d :: rest) := by
  induction pre with
  | nil => simp [splitAtFirstDigit, hd]
  | cons c cs ih =>
    have hc : isDigit L c = false := hpre c (List.mem_cons_self _ _)
    have ih2 := ih (fun x hx => hpre x (List.mem_cons_of_mem _ hx))
    simp [splitAtFirstDigit, hc, ih2]

theorem splitAtFirstDigit_none {ν : Type} (L : Lib ν) (text : GoString)
    (h : ∀ c ∈ text, isDigit L c = false) : splitAtFirstDigit L text = none := by
  induction text with
  | nil => rfl
  | cons c cs ih =>
    have hc : isDigit L c = false := h c (List.mem_cons_self _ _)
    have ih2 := ih (fun x hx => h x (List.mem_cons_of_mem _ hx))
    simp [splitAtFirstDigit, hc, ih2]

theorem digitsValue_eq (d : GoString) (acc : Nat) (h : ∀ c ∈ d, isAsciiDigit c = true) :
    digitsValue d acc
      = some (d.foldl (fun a c => a * 10 + (c.toNat - 48)) acc) := by
  induction d generalizing acc with
  | nil => rfl
  | cons c cs ih =>
    have hc : isAsciiDigit c = true := h c (List.mem_cons_self _ _)
    simp [digitsValue, hc, ih _ (fun x hx => h x (List.mem_cons_of_mem _ hx))]

theorem digits_foldl_cast (d : GoString) (acc : Nat) (h : ∀ c ∈ d, isAsciiDigit c = true) :
    ((d.foldl (fun a c => a * 10 + (c.toNat - 48)) acc : Nat) : Int)
      = d.foldl (fun a c => a * 10 + ((c.toNat : Int) - 48)) (acc : Int) := by
  induction d generalizing acc with
  | nil => rfl
  | cons c cs ih =>
    have hc : isAsciiDigit c = true := h c (List.mem_cons_self _ _)
    have h48 : 48 ≤ c.toNat := by
      unfold isAsciiDigit at hc
      simp only [Bool.and_eq_true, decide_eq_true_eq] at hc
      exact hc.1
    simp only [List.foldl_cons]
    rw [ih _ (fun x hx => h x (List.mem_cons_of_mem _ hx))]
    congr 1
    push_cast [Nat.cast_sub h48]
    ring

theorem digitsValue_none (d : GoString) (acc : Nat) (h : ∃ c ∈ d, isAsciiDigit c = false) :
    digitsValue d acc = none := by
  induction d generalizing acc with
  | nil => simp at h
  | cons c cs ih =>
    cases hc : isAsciiDigit c with
    | false => simp [digitsValue, hc]
    | true =>
      obtain ⟨x, hx, hxd⟩ := h
      rcases List.mem_cons.mp hx with rfl | hx2
      · rw [hc] at hxd; cases hxd
      · simp [digitsValue, hc, ih _ ⟨x, hx2, hxd⟩]

theorem not_sign_of_isDigit {ν : Type} (L : Lib ν) (c : Char) (h : isDigit L c = true) :
    c ≠ '-' ∧ c ≠ '+' := by
  constructor
  · rintro rfl; revert h; simp [isDigit, isAsciiDigit]
  · rintro rfl; revert h; simp [isDigit, isAsciiDigit]

theorem Atoi_of_digit_start {ν : Type} (L : Lib ν) (c : Char) (cs : GoString)
    (h : isDigit L c = true) :
    Atoi (c :: cs) =
      match digitsValue (c :: cs) 0 with
      | none => none
      | some n => if (n : Int) ≤ intMax then some (n : Int) else none := by
  obtain ⟨h1, h2⟩ := not_sign_of_isDigit L c h
  simp [Atoi, h1, h2]

theorem toNat_ofNat_upper (n : Nat) (h1 : 97 ≤ n) (h2 : n ≤ 122) :
    (Char.ofNat (n - 32)).toNat = n - 32 := by
  interval_cases n <;> rfl

theorem toUpperRune_letter {ν : Type} (L : Lib ν) (c : Char) (h : isAsciiLetter c = true) :
    (((toUpperRune L c).toNat : Int)) - 65 = letterValue c := by
  unfold isAsciiLetter at h
  simp only [Bool.or_eq_true, Bool.and_eq_true, decide_eq_true_eq] at h
  unfold toUpperRune letterValue
  have h127 : c.toNat ≤ 127 := by omega
  simp only [h127, if_true]
  by_cases hl : 97 ≤ c.toNat ∧ c.toNat ≤ 122
  · simp only [hl, and_self, if_true]
    rw [toNat_ofNat_upper _ hl.1 hl.2]
    omega
  · simp only [hl, if_false]

theorem parseCol_fold_letters {ν : Type} (L : Lib ν) (p : GoString)
    (hp : ∀ c ∈ p, isAsciiLetter c = true) (acc : Int) :
    (ToUpper L p).foldl (fun col char => wrapInt (col * 26 + ((char.toNat : Int) - 65)))
        (wrapInt acc)
      = wrapInt (p.foldl (fun a c => a * 26 + letterValue c) acc) := by
  induction p generalizing acc with
  | nil => rfl
  | cons c cs ih =>
    have hc := toUpperRune_letter L c (hp c (List.mem_cons_self _ _))
    have ih2 := ih (fun x hx => hp x (List.mem_cons_of_mem _ hx)) (acc * 26 + letterValue c)
    simp only [ToUpper, List.map_cons, List.foldl_cons] at ih2 ⊢
    rw [wrapInt_step, hc]
    exact ih2

theorem parseCol_letters {ν : Type} (L : Lib ν) (p : GoString)
    (hp : ∀ c ∈ p, isAsciiLetter c = true) :
    parseCol (ToUpper L p) = .ok (wrapInt (hornerValue p)) := by
  have h := parseCol_fold_letters L p hp 0
  have h0 : wrapInt 0 = 0 := by decide
  rw [h0] at h
  unfold parseCol hornerValue
  rw [h]

theorem letterValue_range (c : Char) (h : isAsciiLetter c = true) :
    0 ≤ letterValue c ∧ letterValue c ≤ 25 := by
  unfold isAsciiLetter at h
  simp only [Bool.or_eq_true, Bool.and_eq_true, decide_eq_true_eq] at h
  unfold letterValue
  split <;> omega

theorem horner_fold_bound (p : GoString) (hp : ∀ c ∈ p, isAsciiLetter c = true) (acc : Int)
    (k : Nat) (h0 : 0 ≤ acc) (h1 : acc < 26 ^ k) :
    0 ≤ p.foldl (fun a c => a * 26 + letterValue c) acc
      ∧ p.foldl (fun a c => a * 26 + letterValue c) acc < 26 ^ (k + p.length) := by
  induction p generalizing acc k with
  | nil => exact ⟨h0, by simpa using h1⟩
  | cons c cs ih =>
    obtain ⟨hl, hu⟩ := letterValue_range c (hp c (List.mem_cons_self _ _))
    have hstep0 : 0 ≤ acc * 26 + letterValue c := by positivity
    have hstep1 : acc * 26 + letterValue c < 26 ^ (k + 1) := by
      rw [pow_succ]; nlinarith
    have := ih (fun x hx => hp x (List.mem_cons_of_mem _ hx)) _ (k + 1) hstep0 hstep1
    simp only [List.foldl_cons, List.length_cons]
    have e : k + 1 + cs.length = k + (cs.length + 1) := by omega
    rw [e] at this
    exact this

theorem hornerValue_fits (p : GoString) (hp : ∀ c ∈ p, isAsciiLetter c = true)
    (hlen : p.length ≤ 13) : wrapInt (hornerValue p) = hornerValue p := by
  obtain ⟨h0, h1⟩ := horner_fold_bound p hp 0 0 (le_refl 0) (by norm_num)
  have h2 : (26 : Int) ^ (0 + p.length) ≤ 26 ^ 13 :=
    pow_le_pow_right₀ (by norm_num) (by omega)
  have h3 : (26 : Int) ^ 13 = 2481152873203736576 := by norm_num
  apply wrapInt_of_range
  · unfold intMin hornerValue; omega
  · unfold intMax hornerValue; omega

theorem decimalValue_nonneg (d : GoString) (hd : ∀ c ∈ d, isAsciiDigit c = true) :
    0 ≤ decimalValue d := by
  have h := digits_foldl_cast d 0 hd
  unfold decimalValue
  simp only [Nat.cast_zero] at h
  rw [← h]
  exact Int.natCast_nonneg _

theorem Atoi_digits (d : GoString) (hd0 : d ≠ []) (hd : ∀ c ∈ d, isAsciiDigit c = true)
    (hn : decimalValue d ≤ intMax) : Atoi d = some (decimalValue d) := by
  cases d with
  | nil => exact absurd rfl hd0
  | cons c cs =>
    have hc : isAsciiDigit c = true := hd c (List.mem_cons_self _ _)
    have lib : Lib Unit := ⟨fun _ => false, fun x => x, fun _ => false, fun _ => []⟩
    rw [Atoi_of_digit_start lib c cs (isDigit_of_ascii lib c hc)]
    rw [digitsValue_eq _ _ hd]
    have h := digits_foldl_cast (c :: cs) 0 hd
    simp only [Nat.cast_zero] at h
    have h2 : ((List.foldl (fun a c => a * 10 + (c.toNat - 48)) 0 (c :: cs) : Nat) : Int)
        = decimalValue (c :: cs) := h
    simp only [h2, hn, if_true]

theorem parseCellRef_split {ν : Type} (L : Lib ν) (sheetName pre : GoString) (d : Char)
    (rest : GoString) (hpre : ∀ c ∈ pre, isDigit L c = false) (hd : isDigit L d = true) :
    parseCellRef L sheetName (pre ++ d :: rest) =
      match Atoi (d :: rest) with
      | none => .error .invalidRowNumber
      | some row =>
        .ok (wrapInt (row - 1),
          (ToUpper L pre).foldl (fun col char => wrapInt (col * 26 + ((char.toNat : Int) - 65))) 0) := by
  unfold parseCellRef
  rw [splitAtFirstDigit_append L pre d rest hpre hd]
  simp only [parseCol]

theorem parseCellRef_letters_digits {ν : Type} (L : Lib ν) (sheetName p d : GoString)
    (hp : ∀ c ∈ p, isAsciiLetter c = true) (hd0 : d ≠ [])
    (hd : ∀ c ∈ d, isAsciiDigit c = true) (hn : decimalValue d ≤ intMax) :
    parseCellRef L sheetName (p ++ d) = .ok (decimalValue d - 1, wrapInt (hornerValue p)) := by
  cases d with
  | nil => exact absurd rfl hd0
  | cons c cs =>
    have hc : isDigit L c = true := isDigit_of_ascii L c (hd c (List.mem_cons_self _ _))
    rw [parseCellRef_split L sheetName p c cs (fun x hx => isDigit_of_letter L x (hp x hx)) hc]
    rw [Atoi_digits (c :: cs) hd0 hd hn]
    have hcol := parseCol_letters L p hp
    unfold parseCol at hcol
    have hcol2 := Except.ok.inj hcol
    have hnn := decimalValue_nonneg (c :: cs) hd
    have hrow : wrapInt (decimalValue (c :: cs) - 1) = decimalValue (c :: cs) - 1 := by
      apply wrapInt_of_range
      · unfold intMin; omega
      · unfold intMax at hn ⊢; omega
    simp only [hcol2, hrow]

theorem Split_ne_nil (sep : Char) (c : GoString) : Split sep c ≠ [] := by
  cases c with
  | nil => simp [Split]
  | cons x xs =>
    unfold Split
    split
    · simp
    · split <;> simp

theorem Split_length (sep : Char) (c : GoString) :
    (Split sep c).length = c.count sep + 1 := by
  induction c with
  | nil => simp [Split]
  | cons x xs ih =>
    unfold Split
    by_cases h : x = sep
    · subst h
      simp [ih]
    · simp only [h, if_false]
      have hne : (x == sep) = false := by simpa using h
      rw [List.count_cons, hne]
      cases hs : Split sep xs with
      | nil => exact absurd hs (Split_ne_nil sep xs)
      | cons q qs =>
        rw [hs] at ih
        simpa using ih

theorem Split_no_sep (sep : Char) (c : GoString) (h : sep ∉ c) : Split sep c = [c] := by
  induction c with
  | nil => rfl
  | cons x xs ih =>
    have hx : x ≠ sep := fun e => h (by simp [e])
    have hxs : sep ∉ xs := fun e => h (List.mem_cons_of_mem _ e)
    simp [Split, hx, ih hxs]

theorem Split_one_sep (sep : Char) (a b : GoString) (ha : sep ∉ a) (hb : sep ∉ b) :
    Split sep (a ++ sep :: b) = [a, b] := by
  induction a with
  | nil => simp [Split, Split_no_sep sep b hb]
  | cons x xs ih =>
    have hx : x ≠ sep := fun e => ha (by simp [e])
    have hxs : sep ∉ xs := fun e => ha (List.mem_cons_of_mem _ e)
    simp [Split, hx, ih hxs]

theorem parseRangeText_many {ν : Type} (L : Lib ν) (sheetName c : GoString)
    (h : 2 ≤ c.count ':') : parseRangeText L sheetName c = .error .invalidCellRangeFormat := by
  have hl := Split_length ':' c
  unfold parseRangeText
  split
  · next p0 hs => rw [hs] at hl; simp at hl; omega
  · next p0 p1 hs => rw [hs] at hl; simp at hl; omega
  · rfl

theorem ParseCellRanges_eq {ν : Type} (L : Lib ν) (sheetName x y z : GoString) :
    ParseCellRanges L sheetName x y z =
      match parseRangeText L sheetName x with
      | .error e => .error e
      | .ok s0 =>
        match parseRangeText L sheetName y with
        | .error e => .error e
        | .ok s1 =>
          match parseRangeText L sheetName z with
          | .error e => .error e
          | .ok s2 => .ok [s0, s1, s2] := by
  unfold ParseCellRanges
  simp only [parseRangesLoop]
  cases parseRangeText L sheetName x with
  | error e => rfl
  | ok s0 =>
    cases parseRangeText L sheetName y with
    | error e => rfl
    | ok s1 =>
      cases parseRangeText L sheetName z with
      | error e => rfl
      | ok s2 => rfl

theorem parseCellRef_A1_B2 {ν : Type} (L : Lib ν) (sheetName : GoString) :
    parseCellRef L sheetName "A1".toList = .ok (0, 0)
    ∧ parseCellRef L sheetName "B2".toList = .ok (1, 1) := by
  constructor
  · have h := parseCellRef_letters_digits L sheetName "A".toList "1".toList
      (by decide) (by decide) (by decide) (by decide)
    rw [show "A1".toList = "A".toList ++ "1".toList from rfl, h]
    decide
  · have h := parseCellRef_letters_digits L sheetName "B".toList "2".toList
      (by decide) (by decide) (by decide) (by decide)
    rw [show "B2".toList = "B".toList ++ "2".toList from rfl, h]
    decide

theorem splitAtFirstDigit_some {ν : Type} (L : Lib ν) (text pre suf : GoString)
    (h : splitAtFirstDigit L text = some (pre, suf)) :
    ∃ d rest, suf = d :: rest ∧ isDigit L d = true ∧ text = pre ++ suf
      ∧ ∀ c ∈ pre, isDigit L c = false := by
  induction text generalizing pre with
  | nil => simp [splitAtFirstDigit] at h
  | cons x xs ih =>
    unfold splitAtFirstDigit at h
    cases hx : isDigit L x with
    | true =>
      simp only [hx, if_true, Option.some.injEq, Prod.mk.injEq] at h
      obtain ⟨rfl, rfl⟩ := h
      exact ⟨x, xs, rfl, hx, rfl, by simp⟩
    | false =>
      simp only [hx, Bool.false_eq_true, if_false] at h
      cases hs : splitAtFirstDigit L xs with
      | none => rw [hs] at h; cases h
      | some ps =>
        obtain ⟨p1, s1⟩ := ps
        rw [hs] at h
        simp only [Option.some.injEq, Prod.mk.injEq] at h
        obtain ⟨rfl, rfl⟩ := h
        obtain ⟨d, rest, e1, e2, e3, e4⟩ := ih p1 hs
        refine ⟨d, rest, e1, e2, by rw [e3]; rfl, ?_⟩
        intro c hc
        rcases List.mem_cons.mp hc with rfl | hc2
        · exact hx
        · exact e4 c hc2

theorem Atoi_digit_start_range {ν : Type} (L : Lib ν) (d : Char) (rest : GoString) (row : Int)
    (hd : isDigit L d = true) (h : Atoi (d :: rest) = some row) : 0 ≤ row ∧ row ≤ intMax := by
  rw [Atoi_of_digit_start L d rest hd] at h
  cases hv : digitsValue (d :: rest) 0 with
  | none => rw [hv] at h; cases h
  | some n =>
    rw [hv] at h
    simp only at h
    by_cases hle : (n : Int) ≤ intMax
    · simp only [hle, if_true, Option.some.injEq] at h
      subst h
      exact ⟨Int.natCast_nonneg n, hle⟩
    · simp only [hle, if_false] at h
      cases h

theorem parseCellRef_row_range {ν : Type} (L : Lib ν) (sheetName text : GoString) (r c : Int)
    (h : parseCellRef L sheetName text = .ok (r, c)) : -1 ≤ r ∧ r < intMax := by
  unfold parseCellRef at h
  cases hs : splitAtFirstDigit L text with
  | none =>
    rw [hs] at h
    simp only [Except.ok.injEq, Prod.mk.injEq] at h
    have hw : wrapInt (0 - 1) = -1 := by decide
    rw [hw] at h
    unfold intMax
    omega
  | some ps =>
    obtain ⟨pre, suf⟩ := ps
    obtain ⟨d, rest, e1, e2, _, _⟩ := splitAtFirstDigit_some L text pre suf hs
    subst e1
    rw [hs] at h
    simp only at h
    cases ha : Atoi (d :: rest) with
    | none => rw [ha] at h; cases h
    | some row =>
      obtain ⟨h0, h1⟩ := Atoi_digit_start_range L d rest row e2 ha
      rw [ha] at h
      simp only [parseCol, Except.ok.injEq, Prod.mk.injEq] at h
      have hw : wrapInt (row - 1) = row - 1 := by
        apply wrapInt_of_range
        · unfold intMin; omega
        · unfold intMax at h1 ⊢; omega
      rw [hw] at h
      unfold intMax at h1 ⊢
      omega

theorem parseRangeText_inv {ν : Type} (L : Lib ν) (sheetName c : GoString) (cr : CellRange)
    (h : parseRangeText L sheetName c = .ok cr) :
    ∃ p0 p1, parseCellRef L sheetName p0 = .ok (cr.StartRow, cr.StartCol)
      ∧ parseCellRef L sheetName p1 = .ok (cr.EndRow, cr.EndCol) := by
  unfold parseRangeText at h
  split at h
  · next p0 _ =>
    cases hp : parseCellRef L sheetName p0 with
    | error e => rw [hp] at h; cases h
    | ok rc =>
      obtain ⟨r, k⟩ := rc
      rw [hp] at h
      simp only [Except.ok.injEq] at h
      subst h
      exact ⟨p0, p0, hp, hp⟩
  · next p0 p1 _ =>
    cases hp : parseCellRef L sheetName p0 with
    | error e => rw [hp] at h; cases h
    | ok rc =>
      obtain ⟨r, k⟩ := rc
      rw [hp] at h
      simp only at h
      cases hq : parseCellRef L sheetName p1 with
      | error e => rw [hq] at h; cases h
      | ok rc2 =>
        obtain ⟨r2, k2⟩ := rc2
        rw [hq] at h
        simp only [Except.ok.injEq] at h
        subst h
        exact ⟨p0, p1, hp, hq⟩
  · cases h

theorem parseRangeText_row_range {ν : Type} (L : Lib ν) (sheetName c : GoString)
    (cr : CellRange) (h : parseRangeText L sheetName c = .ok cr) :
    -1 ≤ cr.StartRow ∧ cr.StartRow < intMax ∧ -1 ≤ cr.EndRow ∧ cr.EndRow < intMax := by
  obtain ⟨p0, p1, h0, h1⟩ := parseRangeText_inv L sheetName c cr h
  obtain ⟨a, b⟩ := parseCellRef_row_range L sheetName p0 _ _ h0
  obtain ⟨a2, b2⟩ := parseCellRef_row_range L sheetName p1 _ _ h1
  exact ⟨a, b, a2, b2⟩

/-! ## Lemmas on the comparison -/

theorem len_nonneg {α : Type} (xs : List α) : 0 ≤ len xs := by
  unfold len; omega

theorem index_neg {α : Type} (xs : List α) (i : Int) (h : i < 0) :
    index xs i = .error .indexOutOfRange := by
  unfold index
  have : ¬ 0 ≤ i := by omega
  simp only [this, if_false]

theorem index_nonneg {α : Type} (xs : List α) (i : Int) (h : 0 ≤ i) :
    index xs i =
      match xs[i.toNat]? with
      | some x => .ok x
      | none => .error .indexOutOfRange := by
  unfold index
  simp only [h, if_true]

theorem cellGuard_neg {ν : Type} (sheet : Grid ν) (row col : Int) (h : row < 0) :
    cellGuard sheet row col = .error .indexOutOfRange := by
  unfold cellGuard
  have h1 : row < len sheet := lt_of_lt_of_le h (len_nonneg sheet)
  simp only [h1, if_true, index_neg sheet row h]

theorem cellGuard_nonneg {ν : Type} (sheet : Grid ν) (row col : Int) (h : 0 ≤ row) :
    cellGuard sheet row col =
      .ok (match sheet[row.toNat]? with
           | some r => decide (col < len r)
           | none => false) := by
  unfold cellGuard
  by_cases h1 : row < len sheet
  · have h2 : row.toNat < sheet.length := by unfold len at h1; omega
    simp only [h1, if_true, index_nonneg sheet row h, List.getElem?_eq_getElem h2]
  · have h2 : sheet.length ≤ row.toNat := by unfold len at h1; omega
    simp only [h1, if_false, List.getElem?_eq_none h2]

theorem cellGuard_eq_inBounds {ν : Type} (sheet : Grid ν) (row col : Int) (h : 0 ≤ row)
    (hc : 0 ≤ col) : cellGuard sheet row col = .ok (inBounds sheet row col) := by
  rw [cellGuard_nonneg sheet row col h]
  unfold inBounds
  simp only [h, hc, decide_True, Bool.true_and]

theorem cellAt_inBounds {ν : Type} (L : Lib ν) (sheet : Grid ν) (row col : Int)
    (h : inBounds sheet row col = true) :
    ∃ v, cellAt sheet row col = .ok v ∧ interfaceToString L v = textAt L sheet row col := by
  unfold inBounds at h
  simp only [Bool.and_eq_true, decide_eq_true_eq] at h
  obtain ⟨⟨h0, h1⟩, h2⟩ := h
  cases hr : sheet[row.toNat]? with
  | none => rw [hr] at h2; cases h2
  | some r =>
    rw [hr] at h2
    simp only [decide_eq_true_eq] at h2
    have h3 : col.toNat < r.length := by unfold len at h2; omega
    refine ⟨r[col.toNat], ?_, ?_⟩
    · unfold cellAt
      rw [index_nonneg sheet row h0, hr]
      simp only
      rw [index_nonneg r col h1, List.getElem?_eq_getElem h3]
    · unfold textAt
      simp only [h0, h1, and_self, if_true, hr, List.getElem?_eq_getElem h3]

theorem textAt_out {ν : Type} (L : Lib ν) (sheet : Grid ν) (row col : Int)
    (h : inBounds sheet row col = false) : textAt L sheet row col = [] := by
  unfold textAt
  by_cases h0 : 0 ≤ row ∧ 0 ≤ col
  · simp only [h0, and_self, if_true]
    unfold inBounds at h
    simp only [h0.1, h0.2, decide_True, Bool.true_and] at h
    cases hr : sheet[row.toNat]? with
    | none => rfl
    | some r =>
      rw [hr] at h
      simp only [decide_eq_false_iff_not] at h
      have h3 : r.length ≤ col.toNat := by unfold len at h; omega
      simp only [List.getElem?_eq_none h3]
  · simp only [h0, if_false]

theorem guardedText_nonneg {ν : Type} (L : Lib ν) (sheet : Grid ν) (row col : Int)
    (h : 0 ≤ row) (hc : 0 ≤ col) :
    guardedText L sheet row col = .ok (textAt L sheet row col) := by
  unfold guardedText
  rw [cellGuard_eq_inBounds sheet row col h hc]
  cases hb : inBounds sheet row col with
  | false => simp only [textAt_out L sheet row col hb]
  | true =>
    obtain ⟨v, hv, hv2⟩ := cellAt_inBounds L sheet row col hb
    simp only [hv, hv2]

theorem guardedText_ok {ν : Type} (L : Lib ν) (sheet : Grid ν) (row col : Int) (t : GoString)
    (h : guardedText L sheet row col = .ok t) : t = textAt L sheet row col := by
  by_cases h0 : 0 ≤ row
  · by_cases h1 : 0 ≤ col
    · rw [guardedText_nonneg L sheet row col h0 h1] at h
      exact (Except.ok.inj h).symm
    · unfold guardedText at h
      rw [cellGuard_nonneg sheet row col h0] at h
      have ht : textAt L sheet row col = [] := by
        unfold textAt
        have : ¬ (0 ≤ row ∧ 0 ≤ col) := fun c => h1 c.2
        simp only [this, if_false]
      cases hr : sheet[row.toNat]? with
      | none =>
        rw [hr] at h
        simp only at h
        rw [ht]; exact (Except.ok.inj h).symm
      | some r =>
        rw [hr] at h
        have hlt : col < len r := lt_of_lt_of_le (by omega) (len_nonneg r)
        have hidx : index sheet row = .ok r := by rw [index_nonneg sheet row h0, hr]
        simp only [hlt, decide_True, cellAt, hidx, index_neg r col (by omega)] at h
        cases h
  · unfold guardedText at h
    rw [cellGuard_neg sheet row col (by omega)] at h
    cases h

theorem inBounds_nonneg {ν : Type} (sheet : Grid ν) (row col : Int)
    (h : inBounds sheet row col = true) : 0 ≤ row ∧ 0 ≤ col := by
  unfold inBounds at h
  simp only [Bool.and_eq_true, decide_eq_true_eq] at h
  exact h.1

theorem cellBody_in {ν : Type} (L : Lib ν) (sheet1 sheet2 : Grid ν) (sheetName : GoString)
    (cr1 cr2 : CellRange) (row col : Int) (st : DiffState)
    (hb : inBounds sheet1 row col = true) :
    cellBody L sheet1 sheet2 sheetName cr1 cr2 row col st =
      match guardedText L sheet1 cr2.StartRow cr2.StartCol with
      | .error f => .error f
      | .ok time =>
        match guardedText L sheet1 cr1.StartRow cr1.StartCol with
        | .error f => .error f
        | .ok title =>
          .ok ⟨st.changedCells ++
              (if inBounds sheet2 row col then
                (if textAt L sheet2 row col ≠ textAt L sheet1 row col then
                  [⟨sheetName, ⟨row, col, textAt L sheet1 row col, time, title⟩,
                    textAt L sheet2 row col⟩]
                 else [])
               else [⟨sheetName, ⟨row, col, textAt L sheet1 row col, time, title⟩, []⟩]),
            (⟨row, col, textAt L sheet1 row col, time, title⟩, textAt L sheet1 row col)
              :: st.sheet1Map⟩ := by
  obtain ⟨h0, h1⟩ := inBounds_nonneg sheet1 row col hb
  obtain ⟨v, hv, hv2⟩ := cellAt_inBounds L sheet1 row col hb
  unfold cellBody
  rw [cellGuard_eq_inBounds sheet1 row col h0 h1, hb]
  simp only [hv, hv2]
  cases guardedText L sheet1 cr2.StartRow cr2.StartCol with
  | error f => rfl
  | ok time =>
    cases guardedText L sheet1 cr1.StartRow cr1.StartCol with
    | error f => rfl
    | ok title =>
      simp only
      rw [cellGuard_eq_inBounds sheet2 row col h0 h1]
      cases hb2 : inBounds sheet2 row col with
      | false => simp
      | true =>
        obtain ⟨w, hw, hw2⟩ := cellAt_inBounds L sheet2 row col hb2
        simp only [hw, hw2]
        by_cases hne : textAt L sheet2 row col = textAt L sheet1 row col
        · simp [hne]
        · simp [hne]

theorem cellBody_out {ν : Type} (L : Lib ν) (sheet1 sheet2 : Grid ν) (sheetName : GoString)
    (cr1 cr2 : CellRange) (row col : Int) (st : DiffState) (h0 : 0 ≤ row) (h1 : 0 ≤ col)
    (hb : inBounds sheet1 row col = false) :
    cellBody L sheet1 sheet2 sheetName cr1 cr2 row col st = .ok st := by
  unfold cellBody
  rw [cellGuard_eq_inBounds sheet1 row col h0 h1, hb]

theorem cellBody_ok {ν : Type} (L : Lib ν) (sheet1 sheet2 : Grid ν) (sheetName : GoString)
    (cr1 cr2 : CellRange) (row col : Int) (st st1 : DiffState)
    (h : cellBody L sheet1 sheet2 sheetName cr1 cr2 row col st = .ok st1) :
    st1.changedCells
      = st.changedCells ++ recordsAt L sheet1 sheet2 sheetName cr1 cr2 row col := by
  cases hb : inBounds sheet1 row col with
  | true =>
    rw [cellBody_in L sheet1 sheet2 sheetName cr1 cr2 row col st hb] at h
    cases ht : guardedText L sheet1 cr2.StartRow cr2.StartCol with
    | error f => rw [ht] at h; cases h
    | ok time =>
      cases hT : guardedText L sheet1 cr1.StartRow cr1.StartCol with
      | error f => rw [ht, hT] at h; cases h
      | ok title =>
        rw [ht, hT] at h
        have e1 := guardedText_ok L sheet1 _ _ time ht
        have e2 := guardedText_ok L sheet1 _ _ title hT
        subst e1 e2
        have h2 := Except.ok.inj h
        rw [← h2]
        unfold recordsAt
        simp only [hb, if_true]
  | false =>
    have hrec : recordsAt L sheet1 sheet2 sheetName cr1 cr2 row col = [] := by
      unfold recordsAt
      simp [hb]
    rw [hrec, List.append_nil]
    by_cases h0 : 0 ≤ row
    · by_cases h1 : 0 ≤ col
      · rw [cellBody_out L sheet1 sheet2 sheetName cr1 cr2 row col st h0 h1 hb] at h
        rw [← Except.ok.inj h]
      · unfold cellBody at h
        rw [cellGuard_nonneg sheet1 row col h0] at h
        cases hr : sheet1[row.toNat]? with
        | none =>
          rw [hr] at h
          simp only at h
          rw [← Except.ok.inj h]
        | some r =>
          rw [hr] at h
          have hlt : col < len r := lt_of_lt_of_le (by omega) (len_nonneg r)
          have hidx : index sheet1 row = .ok r := by rw [index_nonneg sheet1 row h0, hr]
          simp only [hlt, decide_True, cellAt, hidx, index_neg r col (by omega)] at h
          cases h
    · unfold cellBody at h
      rw [cellGuard_neg sheet1 row col (by omega)] at h
      cases h

theorem cellBody_total {ν : Type} (L : Lib ν) (sheet1 sheet2 : Grid ν) (sheetName : GoString)
    (cr1 cr2 : CellRange) (row col : Int) (st : DiffState) (h0 : 0 ≤ row) (h1 : 0 ≤ col)
    (ht : inBounds sheet1 row col = true →
      0 ≤ cr1.StartRow ∧ 0 ≤ cr1.StartCol ∧ 0 ≤ cr2.StartRow ∧ 0 ≤ cr2.StartCol) :
    ∃ st1, cellBody L sheet1 sheet2 sheetName cr1 cr2 row col st = .ok st1 := by
  cases hb : inBounds sheet1 row col with
  | false => exact ⟨st, cellBody_out L sheet1 sheet2 sheetName cr1 cr2 row col st h0 h1 hb⟩
  | true =>
    obtain ⟨a, b, c, d⟩ := ht hb
    rw [cellBody_in L sheet1 sheet2 sheetName cr1 cr2 row col st hb,
      guardedText_nonneg L sheet1 _ _ c d, guardedText_nonneg L sheet1 _ _ a b]
    exact ⟨_, rfl⟩

/-! ### Loops -/

theorem mem_intsFrom (n : Nat) (i j : Int) : j ∈ intsFrom n i ↔ i ≤ j ∧ j < i + n := by
  induction n generalizing i with
  | zero => simp only [intsFrom, List.not_mem_nil, false_iff]; omega
  | succ n ih =>
    simp only [intsFrom, List.mem_cons, ih]
    constructor
    · rintro (h | h) <;> omega
    · intro h
      by_cases e : j = i
      · exact Or.inl e
      · right; omega

theorem loopFrom_ok_append {σ β : Type} (proj : σ → List β) (f : Int → List β)
    (body : Int → σ → Except Fault σ)
    (hbody : ∀ j s s1, body j s = .ok s1 → proj s1 = proj s ++ f j)
    (n : Nat) (i : Int) (s s1 : σ) (h : loopFrom body n i s = .ok s1) :
    proj s1 = proj s ++ (intsFrom n i).flatMap f := by
  induction n generalizing i s with
  | zero =>
    simp only [loopFrom] at h
    rw [← Except.ok.inj h]
    simp [intsFrom]
  | succ n ih =>
    simp only [loopFrom] at h
    cases hb : body i s with
    | error f => rw [hb] at h; cases h
    | ok s2 =>
      rw [hb] at h
      simp only at h
      by_cases hi : i = intMax
      · simp only [hi, if_true] at h
        cases hw : iterate body 18446744073709551616 intMin s2 with
        | error f => rw [hw] at h; cases h
        | ok t => rw [hw] at h; cases h
      · simp only [hi, if_false] at h
        rw [ih (i + 1) s2 h, hbody i s s2 hb]
        simp [intsFrom, List.append_assoc]

theorem loopFrom_total {σ : Type} (body : Int → σ → Except Fault σ) (n : Nat) (i : Int)
    (hmax : ∀ j, i ≤ j → j < i + n → j < intMax)
    (hbody : ∀ j s, i ≤ j → j < i + n → ∃ s1, body j s = .ok s1) (s : σ) :
    ∃ s1, loopFrom body n i s = .ok s1 := by
  induction n generalizing i s with
  | zero => exact ⟨s, rfl⟩
  | succ n ih =>
    obtain ⟨s2, hs2⟩ := hbody i s (le_refl i) (by push_cast; omega)
    have hi : i ≠ intMax := ne_of_lt (hmax i (le_refl i) (by push_cast; omega))
    simp only [loopFrom, hs2, hi, if_false]
    exact ih (i + 1) (fun j h1 h2 => hmax j (by omega) (by push_cast; omega))
      (fun j t h1 h2 => hbody j t (by omega) (by push_cast; omega)) s2

theorem forLoop_total {σ : Type} (body : Int → σ → Except Fault σ) (lo hi : Int)
    (hmax : hi < intMax)
    (hbody : ∀ j s, lo ≤ j → j ≤ hi → ∃ s1, body j s = .ok s1) (s : σ) :
    ∃ s1, forLoop lo hi body s = .ok s1 := by
  unfold forLoop
  apply loopFrom_total
  · intro j h1 h2; omega
  · intro j t h1 h2; exact hbody j t h1 (by omega)

theorem regionBody_ok {ν : Type} (L : Lib ν) (sheet1 sheet2 : Grid ν) (sheetName : GoString)
    (cr0 cr1 cr2 : CellRange) (st st1 : DiffState)
    (h : regionBody L sheet1 sheet2 sheetName [cr0, cr1, cr2] st = .ok st1) :
    st1.changedCells
      = st.changedCells ++ spanRecords L sheet1 sheet2 sheetName cr0 cr1 cr2 := by
  unfold regionBody forLoop at h
  unfold spanRecords
  refine loopFrom_ok_append DiffState.changedCells _ _ ?_ _ _ st st1 h
  intro row s s1 hrow
  exact loopFrom_ok_append DiffState.changedCells _ _
    (fun col t t1 ht => cellBody_ok L sheet1 sheet2 sheetName cr1 cr2 row col t t1 ht)
    _ _ s s1 hrow

theorem regionBody_total {ν : Type} (L : Lib ν) (sheet1 sheet2 : Grid ν) (sheetName : GoString)
    (cr0 cr1 cr2 : CellRange) (st : DiffState)
    (hr : 0 ≤ cr0.StartRow) (hc : 0 ≤ cr0.StartCol)
    (hre : cr0.EndRow < intMax) (hce : cr0.EndCol < intMax)
    (ht : ∀ row col, cr0.StartRow ≤ row → row ≤ cr0.EndRow → cr0.StartCol ≤ col →
      col ≤ cr0.EndCol → inBounds sheet1 row col = true →
      0 ≤ cr1.StartRow ∧ 0 ≤ cr1.StartCol ∧ 0 ≤ cr2.StartRow ∧ 0 ≤ cr2.StartCol) :
    ∃ st1, regionBody L sheet1 sheet2 sheetName [cr0, cr1, cr2] st = .ok st1 := by
  unfold regionBody
  apply forLoop_total _ _ _ hre
  intro row s h1 h2
  apply forLoop_total _ _ _ hce
  intro col t h3 h4
  exact cellBody_total L sheet1 sheet2 sheetName cr1 cr2 row col t (by omega) (by omega)
    (ht row col h1 h2 h3 h4)

theorem regionRecords_parsed {ν : Type} (L : Lib ν) (sheet1 sheet2 : Grid ν)
    (sheetName : GoString) (cellConfig : PreDefinedCells) (cr0 cr1 cr2 : CellRange)
    (h0 : parseRangeText L sheetName cellConfig.CellRange = .ok cr0)
    (h1 : parseRangeText L sheetName cellConfig.TitleRange = .ok cr1)
    (h2 : parseRangeText L sheetName cellConfig.TimeRange = .ok cr2) :
    regionRecords L sheet1 sheet2 sheetName cellConfig
      = spanRecords L sheet1 sheet2 sheetName cr0 cr1 cr2 := by
  unfold regionRecords
  rw [h0, h1, h2]

theorem ParseCellRanges_parsed {ν : Type} (L : Lib ν) (sheetName : GoString)
    (cellConfig : PreDefinedCells) (cr0 cr1 cr2 : CellRange)
    (h0 : parseRangeText L sheetName cellConfig.CellRange = .ok cr0)
    (h1 : parseRangeText L sheetName cellConfig.TitleRange = .ok cr1)
    (h2 : parseRangeText L sheetName cellConfig.TimeRange = .ok cr2) :
    ParseCellRanges L sheetName cellConfig.CellRange cellConfig.TitleRange
      cellConfig.TimeRange = .ok [cr0, cr1, cr2] := by
  rw [ParseCellRanges_eq, h0, h1, h2]

theorem ParseCellRanges_cases {ν : Type} (L : Lib ν) (sheetName : GoString)
    (cellConfig : PreDefinedCells) :
    (∃ e, ParseCellRanges L sheetName cellConfig.CellRange cellConfig.TitleRange
        cellConfig.TimeRange = .error e
      ∧ ∀ sheet1 sheet2 : Grid ν, regionRecords L sheet1 sheet2 sheetName cellConfig = [])
    ∨ (∃ cr0 cr1 cr2, parseRangeText L sheetName cellConfig.CellRange = .ok cr0
      ∧ parseRangeText L sheetName cellConfig.TitleRange = .ok cr1
      ∧ parseRangeText L sheetName cellConfig.TimeRange = .ok cr2) := by
  rw [ParseCellRanges_eq]
  unfold regionRecords
  cases h0 : parseRangeText L sheetName cellConfig.CellRange with
  | error e => exact Or.inl ⟨e, rfl, fun _ _ => rfl⟩
  | ok cr0 =>
    cases h1 : parseRangeText L sheetName cellConfig.TitleRange with
    | error e => exact Or.inl ⟨e, rfl, fun _ _ => rfl⟩
    | ok cr1 =>
      cases h2 : parseRangeText L sheetName cellConfig.TimeRange with
      | error e => exact Or.inl ⟨e, rfl, fun _ _ => rfl⟩
      | ok cr2 => exact Or.inr ⟨cr0, cr1, cr2, rfl, rfl, rfl⟩

theorem regionsLoop_ok {ν : Type} (L : Lib ν) (sheet1 sheet2 : Grid ν) (sheetName : GoString)
    (regions : List PreDefinedCells) (st st1 : DiffState)
    (h : regionsLoop L sheet1 sheet2 sheetName regions st = .ok st1) :
    st1.changedCells
      = st.changedCells ++ regions.flatMap (regionRecords L sheet1 sheet2 sheetName) := by
  induction regions generalizing st with
  | nil =>
    simp only [regionsLoop] at h
    rw [← Except.ok.inj h]
    simp
  | cons cfg rest ih =>
    simp only [regionsLoop] at h
    rcases ParseCellRanges_cases L sheetName cfg with ⟨e, he, hnone⟩ | ⟨cr0, cr1, cr2, h0, h1, h2⟩
    · rw [he] at h
      simp only at h
      rw [ih st h]
      simp [hnone sheet1 sheet2]
    · rw [ParseCellRanges_parsed L sheetName cfg cr0 cr1 cr2 h0 h1 h2] at h
      simp only at h
      cases hb : regionBody L sheet1 sheet2 sheetName [cr0, cr1, cr2] st with
      | error f => rw [hb] at h; cases h
      | ok st2 =>
        rw [hb] at h
        simp only at h
        rw [ih st2 h, regionBody_ok L sheet1 sheet2 sheetName cr0 cr1 cr2 st st2 hb]
        simp [List.append_assoc,
          regionRecords_parsed L sheet1 sheet2 sheetName cfg cr0 cr1 cr2 h0 h1 h2]

theorem Compare_ok {ν : Type} (L : Lib ν) (sheet1 sheet2 : Grid ν) (sheetName : GoString)
    (regions : List PreDefinedCells) (recs : List ChangedCell)
    (h : CompareSpreadsheetsAndGetDiff L sheet1 sheet2 sheetName regions = .ok recs) :
    recs = regions.flatMap (regionRecords L sheet1 sheet2 sheetName) := by
  unfold CompareSpreadsheetsAndGetDiff at h
  cases hl : regionsLoop L sheet1 sheet2 sheetName regions ⟨[], []⟩ with
  | error f => rw [hl] at h; cases h
  | ok st =>
    rw [hl] at h
    simp only at h
    rw [← Except.ok.inj h, regionsLoop_ok L sheet1 sheet2 sheetName regions _ st hl]
    simp

theorem Compare_single {ν : Type} (L : Lib ν) (sheet1 sheet2 : Grid ν) (sheetName : GoString)
    (cellConfig : PreDefinedCells) (cr0 cr1 cr2 : CellRange)
    (h0 : parseRangeText L sheetName cellConfig.CellRange = .ok cr0)
    (h1 : parseRangeText L sheetName cellConfig.TitleRange = .ok cr1)
    (h2 : parseRangeText L sheetName cellConfig.TimeRange = .ok cr2) :
    CompareSpreadsheetsAndGetDiff L sheet1 sheet2 sheetName [cellConfig] =
      match regionBody L sheet1 sheet2 sheetName [cr0, cr1, cr2] ⟨[], []⟩ with
      | .error f => .error f
      | .ok st => .ok st.changedCells := by
  unfold CompareSpreadsheetsAndGetDiff
  simp only [regionsLoop, ParseCellRanges_parsed L sheetName cellConfig cr0 cr1 cr2 h0 h1 h2]
  cases regionBody L sheet1 sheet2 sheetName [cr0, cr1, cr2] ⟨[], []⟩ <;> rfl

theorem Compare_single_total {ν : Type} (L : Lib ν) (sheet1 sheet2 : Grid ν)
    (sheetName : GoString) (cellConfig : PreDefinedCells) (cr0 cr1 cr2 : CellRange)
    (h0 : parseRangeText L sheetName cellConfig.CellRange = .ok cr0)
    (h1 : parseRangeText L sheetName cellConfig.TitleRange = .ok cr1)
    (h2 : parseRangeText L sheetName cellConfig.TimeRange = .ok cr2)
    (hr : 0 ≤ cr0.StartRow) (hc : 0 ≤ cr0.StartCol)
    (hre : cr0.EndRow < intMax) (hce : cr0.EndCol < intMax)
    (ht : ∀ row col, cr0.StartRow ≤ row → row ≤ cr0.EndRow → cr0.StartCol ≤ col →
      col ≤ cr0.EndCol → inBounds sheet1 row col = true →
      0 ≤ cr1.StartRow ∧ 0 ≤ cr1.StartCol ∧ 0 ≤ cr2.StartRow ∧ 0 ≤ cr2.StartCol) :
    CompareSpreadsheetsAndGetDiff L sheet1 sheet2 sheetName [cellConfig]
      = .ok (spanRecords L sheet1 sheet2 sheetName cr0 cr1 cr2) := by
  obtain ⟨st1, hst⟩ := regionBody_total L sheet1 sheet2 sheetName cr0 cr1 cr2 ⟨[], []⟩
    hr hc hre hce ht
  rw [Compare_single L sheet1 sheet2 sheetName cellConfig cr0 cr1 cr2 h0 h1 h2, hst]
  have := regionBody_ok L sheet1 sheet2 sheetName cr0 cr1 cr2 _ st1 hst
  simp only [List.nil_append] at this
  simp only [this]

theorem spanRecords_single {ν : Type} (L : Lib ν) (sheet1 sheet2 : Grid ν)
    (sheetName : GoString) (cr1 cr2 : CellRange) (r c : Int) :
    spanRecords L sheet1 sheet2 sheetName ⟨r, r, c, c⟩ cr1 cr2
      = recordsAt L sheet1 sheet2 sheetName cr1 cr2 r c := by
  unfold spanRecords
  have hr : (r + 1 - r).toNat = 1 := by omega
  have hc : (c + 1 - c).toNat = 1 := by omega
  simp [hr, hc, intsFrom]

theorem mem_recordsAt {ν : Type} (L : Lib ν) (sheet1 sheet2 : Grid ν) (sheetName : GoString)
    (cr1 cr2 : CellRange) (row col : Int) (x : ChangedCell)
    (h : x ∈ recordsAt L sheet1 sheet2 sheetName cr1 cr2 row col) :
    inBounds sheet1 row col = true ∧ x.Date = sheetName ∧ x.Cell.Row = row ∧ x.Cell.Col = col
      ∧ x.Cell.Value = textAt L sheet1 row col
      ∧ x.Cell.Time = textAt L sheet1 cr2.StartRow cr2.StartCol
      ∧ x.Cell.Title = textAt L sheet1 cr1.StartRow cr1.StartCol
      ∧ x.OldValue = textAt L sheet2 row col
      ∧ (inBounds sheet2 row col = true → x.OldValue ≠ x.Cell.Value) := by
  unfold recordsAt at h
  cases hb : inBounds sheet1 row col with
  | false => simp [hb] at h
  | true =>
    simp only [hb, if_true] at h
    cases hb2 : inBounds sheet2 row col with
    | false =>
      simp only [hb2, Bool.false_eq_true, if_false, List.mem_singleton] at h
      subst h
      exact ⟨rfl, rfl, rfl, rfl, rfl, rfl, rfl, (textAt_out L sheet2 row col hb2).symm,
        fun c => Bool.noConfusion c⟩
    | true =>
      simp only [hb2, if_true] at h
      by_cases hne : textAt L sheet2 row col = textAt L sheet1 row col
      · simp [hne] at h
      · simp only [ne_eq, hne, not_false_eq_true, if_true, List.mem_singleton] at h
        subst h
        exact ⟨rfl, rfl, rfl, rfl, rfl, rfl, rfl, rfl, fun _ => hne⟩

/-! ### Faults -/

theorem cellBody_neg_row {ν : Type} (L : Lib ν) (sheet1 sheet2 : Grid ν) (sheetName : GoString)
    (cr1 cr2 : CellRange) (row col : Int) (st : DiffState) (h : row < 0) :
    cellBody L sheet1 sheet2 sheetName cr1 cr2 row col st = .error .indexOutOfRange := by
  unfold cellBody
  rw [cellGuard_neg sheet1 row col h]

theorem cellBody_neg_col {ν : Type} (L : Lib ν) (sheet1 sheet2 : Grid ν) (sheetName : GoString)
    (cr1 cr2 : CellRange) (row col : Int) (st : DiffState) (h0 : 0 ≤ row)
    (h1 : row < len sheet1) (h : col < 0) :
    cellBody L sheet1 sheet2 sheetName cr1 cr2 row col st = .error .indexOutOfRange := by
  have h2 : row.toNat < sheet1.length := by unfold len at h1; omega
  have hidx : index sheet1 row = .ok sheet1[row.toNat] := by
    rw [index_nonneg sheet1 row h0, List.getElem?_eq_getElem h2]
  have hlt : col < len sheet1[row.toNat] := lt_of_lt_of_le h (len_nonneg _)
  unfold cellBody cellGuard cellAt
  simp only [h1, if_true, hidx, hlt, decide_True, index_neg _ col h]

theorem guardedText_neg_row {ν : Type} (L : Lib ν) (sheet : Grid ν) (row col : Int)
    (h : row < 0) : guardedText L sheet row col = .error .indexOutOfRange := by
  unfold guardedText
  rw [cellGuard_neg sheet row col h]

theorem index_error {α : Type} (xs : List α) (i : Int) (f : Fault)
    (h : index xs i = .error f) : f = .indexOutOfRange := by
  unfold index at h
  split at h
  · split at h
    · cases h
    · exact (Except.error.inj h).symm
  · exact (Except.error.inj h).symm

theorem guardedText_error {ν : Type} (L : Lib ν) (sheet : Grid ν) (row col : Int) (f : Fault)
    (h : guardedText L sheet row col = .error f) : f = .indexOutOfRange := by
  by_cases h0 : 0 ≤ row
  · unfold guardedText at h
    rw [cellGuard_nonneg sheet row col h0] at h
    cases hr : sheet[row.toNat]? with
    | none => rw [hr] at h; cases h
    | some r =>
      rw [hr] at h
      have hidx : index sheet row = .ok r := by rw [index_nonneg sheet row h0, hr]
      by_cases hlt : col < len r
      · simp only [hlt, decide_True, cellAt, hidx] at h
        cases hi : index r col with
        | error g =>
          rw [hi] at h
          simp only [Except.error.injEq] at h
          rw [← h]
          exact index_error r col g hi
        | ok v => rw [hi] at h; cases h
      · simp only [hlt, decide_False] at h
        cases h
  · rw [guardedText_neg_row L sheet row col (by omega)] at h
    exact (Except.error.inj h).symm

theorem loopFrom_first_fault {σ : Type} (body : Int → σ → Except Fault σ) (n : Nat) (i : Int)
    (s : σ) (f : Fault) (hn : 0 < n) (h : body i s = .error f) :
    loopFrom body n i s = .error f := by
  cases n with
  | zero => omega
  | succ k => simp only [loopFrom, h]

theorem forLoop_first_fault {σ : Type} (body : Int → σ → Except Fault σ) (lo hi : Int)
    (s : σ) (f : Fault) (hle : lo ≤ hi) (h : body lo s = .error f) :
    forLoop lo hi body s = .error f := by
  unfold forLoop
  exact loopFrom_first_fault body _ lo s f (by omega) h

theorem regionBody_neg_row {ν : Type} (L : Lib ν) (sheet1 sheet2 : Grid ν)
    (sheetName : GoString) (cr0 cr1 cr2 : CellRange) (st : DiffState)
    (h : cr0.StartRow < 0) (hr : cr0.StartRow ≤ cr0.EndRow) (hc : cr0.StartCol ≤ cr0.EndCol) :
    regionBody L sheet1 sheet2 sheetName [cr0, cr1, cr2] st = .error .indexOutOfRange := by
  unfold regionBody
  apply forLoop_first_fault _ _ _ _ _ hr
  apply forLoop_first_fault _ _ _ _ _ hc
  exact cellBody_neg_row L sheet1 sheet2 sheetName cr1 cr2 _ _ st h

theorem regionBody_neg_col {ν : Type} (L : Lib ν) (sheet1 sheet2 : Grid ν)
    (sheetName : GoString) (cr0 cr1 cr2 : CellRange) (st : DiffState)
    (h0 : 0 ≤ cr0.StartRow) (h1 : cr0.StartRow < len sheet1) (h : cr0.StartCol < 0)
    (hr : cr0.StartRow ≤ cr0.EndRow) (hc : cr0.StartCol ≤ cr0.EndCol) :
    regionBody L sheet1 sheet2 sheetName [cr0, cr1, cr2] st = .error .indexOutOfRange := by
  unfold regionBody
  apply forLoop_first_fault _ _ _ _ _ hr
  apply forLoop_first_fault _ _ _ _ _ hc
  exact cellBody_neg_col L sheet1 sheet2 sheetName cr1 cr2 _ _ st h0 h1 h

theorem regionBody_neg_lookup {ν : Type} (L : Lib ν) (sheet1 sheet2 : Grid ν)
    (sheetName : GoString) (cr1 cr2 : CellRange) (r c : Int) (st : DiffState)
    (hb : inBounds sheet1 r c = true) (hneg : cr1.StartRow < 0 ∨ cr2.StartRow < 0) :
    regionBody L sheet1 sheet2 sheetName [⟨r, r, c, c⟩, cr1, cr2] st
      = .error .indexOutOfRange := by
  unfold regionBody
  apply forLoop_first_fault _ _ _ _ _ (le_refl r)
  apply forLoop_first_fault _ _ _ _ _ (le_refl c)
  rw [cellBody_in L sheet1 sheet2 sheetName cr1 cr2 r c st hb]
  cases ht : guardedText L sheet1 cr2.StartRow cr2.StartCol with
  | error f => rw [guardedText_error L sheet1 _ _ f ht]
  | ok time =>
    have h2 : ¬ cr2.StartRow < 0 := by
      intro hlt
      rw [guardedText_neg_row L sheet1 _ _ hlt] at ht
      cases ht
    have h1 : cr1.StartRow < 0 := by
      rcases hneg with h | h
      · exact h
      · exact absurd h h2
    simp only [guardedText_neg_row L sheet1 _ _ h1]

theorem Compare_first_fault {ν : Type} (L : Lib ν) (sheet1 sheet2 : Grid ν)
    (sheetName : GoString) (cellConfig : PreDefinedCells) (rest : List PreDefinedCells)
    (cr0 cr1 cr2 : CellRange) (f : Fault)
    (h0 : parseRangeText L sheetName cellConfig.CellRange = .ok cr0)
    (h1 : parseRangeText L sheetName cellConfig.TitleRange = .ok cr1)
    (h2 : parseRangeText L sheetName cellConfig.TimeRange = .ok cr2)
    (h : regionBody L sheet1 sheet2 sheetName [cr0, cr1, cr2] ⟨[], []⟩ = .error f) :
    CompareSpreadsheetsAndGetDiff L sheet1 sheet2 sheetName (cellConfig :: rest)
      = .error f := by
  unfold CompareSpreadsheetsAndGetDiff
  simp only [regionsLoop, ParseCellRanges_parsed L sheetName cellConfig cr0 cr1 cr2 h0 h1 h2, h]

theorem parseCellRef_no_digit {ν : Type} (L : Lib ν) (sheetName text : GoString)
    (h : ∀ c ∈ text, isDigit L c = false) :
    parseCellRef L sheetName text = .ok (-1, 0) := by
  unfold parseCellRef
  rw [splitAtFirstDigit_none L text h]
  rfl

theorem parseRangeText_single {ν : Type} (L : Lib ν) (sheetName c : GoString) (row col : Int)
    (hc : ':' ∉ c) (h : parseCellRef L sheetName c = .ok (row, col)) :
    parseRangeText L sheetName c = .ok ⟨row, row, col, col⟩ := by
  unfold parseRangeText
  rw [Split_no_sep ':' c hc]
  simp only [h]

theorem parseRangeText_A1 {ν : Type} (L : Lib ν) (sheetName : GoString) :
    parseRangeText L sheetName "A1".toList = .ok ⟨0, 0, 0, 0⟩ :=
  parseRangeText_single L sheetName _ 0 0 (by decide) (parseCellRef_A1_B2 L sheetName).1

theorem parseRangeText_A0 {ν : Type} (L : Lib ν) (sheetName : GoString) :
    parseRangeText L sheetName "A0".toList = .ok ⟨-1, -1, 0, 0⟩ := by
  apply parseRangeText_single L sheetName _ (-1) 0 (by decide)
  have h := parseCellRef_letters_digits L sheetName "A".toList "0".toList
    (by decide) (by decide) (by decide) (by decide)
  rw [show "A0".toList = "A".toList ++ "0".toList from rfl, h]
  decide

theorem parseRangeText_empty {ν : Type} (L : Lib ν) (sheetName : GoString) :
    parseRangeText L sheetName "".toList = .ok ⟨-1, -1, 0, 0⟩ :=
  parseRangeText_single L sheetName _ (-1) 0 (by decide)
    (parseCellRef_no_digit L sheetName _ (by simp))

theorem parseRangeText_dollar {ν : Type} (L : Lib ν) (sheetName : GoString) :
    parseRangeText L sheetName "$1".toList = .ok ⟨0, 0, -29, -29⟩ := by
  apply parseRangeText_single L sheetName _ 0 (-29) (by decide)
  have h := parseCellRef_split L sheetName "$".toList '1' [] (by simp [isDigit, isAsciiDigit])
    (by simp [isDigit, isAsciiDigit])
  rw [show "$1".toList = "$".toList ++ '1' :: [] from rfl, h]
  have hu : ToUpper L "$".toList = "$".toList := by simp [ToUpper, toUpperRune]
  rw [hu]
  decide

/-! ### A region of one cell -/

theorem Compare_single_cell {ν : Type} (L : Lib ν) (current previous : Grid ν)
    (sheetName : GoString) (cellConfig : PreDefinedCells) (r c : Int) (cr1 cr2 : CellRange)
    (h0 : parseRangeText L sheetName cellConfig.CellRange = .ok ⟨r, r, c, c⟩)
    (h1 : parseRangeText L sheetName cellConfig.TitleRange = .ok cr1)
    (h2 : parseRangeText L sheetName cellConfig.TimeRange = .ok cr2)
    (hr : 0 ≤ r) (hc : 0 ≤ c) (hmax : c < intMax)
    (ht : inBounds current r c = true →
      0 ≤ cr1.StartRow ∧ 0 ≤ cr1.StartCol ∧ 0 ≤ cr2.StartRow ∧ 0 ≤ cr2.StartCol) :
    CompareSpreadsheetsAndGetDiff L current previous sheetName [cellConfig]
      = .ok (recordsAt L current previous sheetName cr1 cr2 r c) := by
  have hrow := (parseRangeText_row_range L sheetName _ _ h0).2.1
  rw [Compare_single_total L current previous sheetName cellConfig ⟨r, r, c, c⟩ cr1 cr2 h0 h1 h2
    hr hc hrow hmax, spanRecords_single]
  intro row col a1 a2 a3 a4 hb
  have e1 : row = r := le_antisymm a2 a1
  have e2 : col = c := le_antisymm a4 a3
  subst e1 e2
  exact ht hb

theorem inBounds_lt_intMax {ν : Type} (sheet : Grid ν) (row col : Int)
    (hfit : ∀ r ∈ sheet, len r ≤ intMax) (hb : inBounds sheet row col = true) :
    col < intMax := by
  unfold inBounds at hb
  simp only [Bool.and_eq_true, decide_eq_true_eq] at hb
  obtain ⟨_, h2⟩ := hb
  cases hr : sheet[row.toNat]? with
  | none => rw [hr] at h2; cases h2
  | some r =>
    rw [hr] at h2
    simp only [decide_eq_true_eq] at h2
    have hmem : r ∈ sheet := List.getElem?_mem hr
    have := hfit r hmem
    omega

/-- On a region of one value cell `(r, c)` that is in bounds in both grids,
with title and time spans that start at non-negative coordinates, the
comparison returns one record exactly when the trimmed strings differ. -/
theorem single_cell_in_both {ν : Type} (L : Lib ν) (current previous : Grid ν)
    (sheetName : GoString) (cellConfig : PreDefinedCells) (r c : Int) (cr1 cr2 : CellRange)
    (h0 : parseRangeText L sheetName cellConfig.CellRange = .ok ⟨r, r, c, c⟩)
    (h1 : parseRangeText L sheetName cellConfig.TitleRange = .ok cr1)
    (h2 : parseRangeText L sheetName cellConfig.TimeRange = .ok cr2)
    (hfit : ∀ row ∈ current, len row ≤ intMax)
    (hb1 : inBounds current r c = true) (hb2 : inBounds previous r c = true)
    (ht : 0 ≤ cr1.StartRow ∧ 0 ≤ cr1.StartCol ∧ 0 ≤ cr2.StartRow ∧ 0 ≤ cr2.StartCol) :
    CompareSpreadsheetsAndGetDiff L current previous sheetName [cellConfig]
      = .ok (if textAt L previous r c ≠ textAt L current r c then
          [⟨sheetName, ⟨r, c, textAt L current r c,
            textAt L current cr2.StartRow cr2.StartCol,
            textAt L current cr1.StartRow cr1.StartCol⟩, textAt L previous r c⟩]
        else []) := by
  obtain ⟨hr, hc⟩ := inBounds_nonneg current r c hb1
  rw [Compare_single_cell L current previous sheetName cellConfig r c cr1 cr2 h0 h1 h2 hr hc
    (inBounds_lt_intMax current r c hfit hb1) (fun _ => ht)]
  unfold recordsAt
  simp only [hb1, hb2, if_true]

/-- On a region of one value cell `(r, c)` that is in bounds in the current
grid and out of bounds in the previous one, with title and time spans that
start at non-negative coordinates, the comparison returns exactly one record,
with an empty old value. -/
theorem single_cell_new {ν : Type} (L : Lib ν) (current previous : Grid ν)
    (sheetName : GoString) (cellConfig : PreDefinedCells) (r c : Int) (cr1 cr2 : CellRange)
    (h0 : parseRangeText L sheetName cellConfig.CellRange = .ok ⟨r, r, c, c⟩)
    (h1 : parseRangeText L sheetName cellConfig.TitleRange = .ok cr1)
    (h2 : parseRangeText L sheetName cellConfig.TimeRange = .ok cr2)
    (hfit : ∀ row ∈ current, len row ≤ intMax)
    (hb1 : inBounds current r c = true) (hb2 : inBounds previous r c = false)
    (ht : 0 ≤ cr1.StartRow ∧ 0 ≤ cr1.StartCol ∧ 0 ≤ cr2.StartRow ∧ 0 ≤ cr2.StartCol) :
    CompareSpreadsheetsAndGetDiff L current previous sheetName [cellConfig]
      = .ok [⟨sheetName, ⟨r, c, textAt L current r c,
            textAt L current cr2.StartRow cr2.StartCol,
            textAt L current cr1.StartRow cr1.StartCol⟩, []⟩] := by
  obtain ⟨hr, hc⟩ := inBounds_nonneg current r c hb1
  rw [Compare_single_cell L current previous sheetName cellConfig r c cr1 cr2 h0 h1 h2 hr hc
    (inBounds_lt_intMax current r c hfit hb1) (fun _ => ht)]
  unfold recordsAt
  simp only [hb1, hb2, if_true, Bool.false_eq_true, if_false]

/-! ## Claims on the reference parser -/

/-- C5, as stated, fails: with the fourteen-letter prefix `ZZZZZZZZZZZZZZ` and
the digits `1` the returned column is not the Horner value of the prefix,
which is larger than the largest `int`. -/
theorem C5_counterexample :
    (∀ c ∈ "ZZZZZZZZZZZZZZ".toList, isAsciiLetter c = true)
    ∧ "1".toList ≠ []
    ∧ (∀ c ∈ "1".toList, isAsciiDigit c = true)
    ∧ decimalValue "1".toList ≤ intMax
    ∧ parseCellRef asciiLib [] ("ZZZZZZZZZZZZZZ".toList ++ "1".toList)
        ≠ .ok (decimalValue "1".toList - 1, hornerValue "ZZZZZZZZZZZZZZ".toList)
    ∧ parseCellRef asciiLib [] ("ZZZZZZZZZZZZZZ".toList ++ "1".toList)
        = .ok (0, 9169742482168496127) := by
  decide

/-- C5, amended: for a prefix `p` of ASCII letters followed by a non-empty
string `d` of decimal digits whose value fits in an `int`, `parseCellRef`
succeeds with row `value d - 1` and column the base-26 Horner value of the
upper-cased `p` reduced to the 64-bit `int` range, which is the Horner value
itself when `p` has at most 13 letters. In particular `A1` gives `(0,0)`,
`B10` gives row 9 and column 1, `AA1` gives `(0,0)`, a single letter `A..Z`
gives the columns `0..25`, and a digits-only reference gives column 0. -/
theorem C5_parseCellRef_value {ν : Type} (L : Lib ν) (sheetName : GoString) :
    (∀ p d : GoString, (∀ c ∈ p, isAsciiLetter c = true) → d ≠ [] →
        (∀ c ∈ d, isAsciiDigit c = true) → decimalValue d ≤ intMax →
        parseCellRef L sheetName (p ++ d) = .ok (decimalValue d - 1, wrapInt (hornerValue p))
        ∧ (p.length ≤ 13 → wrapInt (hornerValue p) = hornerValue p)
        ∧ (p = [] → wrapInt (hornerValue p) = 0)
        ∧ (∀ c, p = [c] → 65 ≤ c.toNat → c.toNat ≤ 90 →
            wrapInt (hornerValue p) = (c.toNat : Int) - 65))
    ∧ parseCellRef L sheetName "A1".toList = .ok (0, 0)
    ∧ parseCellRef L sheetName "B10".toList = .ok (9, 1)
    ∧ parseCellRef L sheetName "AA1".toList = .ok (0, 0) := by
  refine ⟨?_, ?_, ?_, ?_⟩
  · intro p d hp hd0 hd hn
    refine ⟨parseCellRef_letters_digits L sheetName p d hp hd0 hd hn,
      hornerValue_fits p hp, ?_, ?_⟩
    · rintro rfl; decide
    · rintro c rfl h1 h2
      have hfit := hornerValue_fits [c] hp (by simp)
      rw [hfit]
      unfold hornerValue letterValue
      simp only [List.foldl_cons, List.foldl_nil]
      have : ¬ (97 ≤ c.toNat ∧ c.toNat ≤ 122) := by omega
      simp only [this, if_false]
      omega
  · have h := parseCellRef_letters_digits L sheetName "A".toList "1".toList
      (by decide) (by decide) (by decide) (by decide)
    rw [show "A1".toList = "A".toList ++ "1".toList from rfl, h]
    decide
  · have h := parseCellRef_letters_digits L sheetName "B".toList "10".toList
      (by decide) (by decide) (by decide) (by decide)
    rw [show "B10".toList = "B".toList ++ "10".toList from rfl, h]
    decide
  · have h := parseCellRef_letters_digits L sheetName "AA".toList "1".toList
      (by decide) (by decide) (by decide) (by decide)
    rw [show "AA1".toList = "AA".toList ++ "1".toList from rfl, h]
    decide

/-- C5 at the reference `bc12`: row 11, column `1 * 26 + 2`. -/
theorem C5_parseCellRef_value_witness :
    parseCellRef asciiLib [] ("bc".toList ++ "12".toList) = .ok (11, 28) := by
  have h := (C5_parseCellRef_value asciiLib []).1 "bc".toList "12".toList
    (by decide) (by decide) (by decide) (by decide)
  rw [h.1]
  decide

/-- C6: the span `ParseCellRanges` computes for a range text depends on the
number of its `:`-separated parts. A text without `:` gives the single-cell
span of `parseCellRef` of the text; a text with exactly one `:` gives the span
from `parseCellRef` of the part before it to `parseCellRef` of the part after
it; a text with two or more `:` makes `ParseCellRanges` fail, in whichever of
the three positions it stands; the result of `ParseCellRanges` is the list of
the three spans, in the order of the texts. `A1:B2` gives start `(0,0)` and end
`(1,1)`, `A1` gives start and end `(0,0)`, and `A1:B2:C3` fails. -/
theorem C6_ParseCellRanges_parts {ν : Type} (L : Lib ν) (sheetName : GoString) :
    (∀ c : GoString, ':' ∉ c →
        parseRangeText L sheetName c =
          match parseCellRef L sheetName c with
          | .error e => .error e
          | .ok (row, col) => .ok ⟨row, row, col, col⟩)
    ∧ (∀ a b : GoString, ':' ∉ a → ':' ∉ b →
        parseRangeText L sheetName (a ++ ':' :: b) =
          match parseCellRef L sheetName a with
          | .error e => .error e
          | .ok (startRow, startCol) =>
            match parseCellRef L sheetName b with
            | .error e => .error e
            | .ok (endRow, endCol) => .ok ⟨startRow, endRow, startCol, endCol⟩)
    ∧ (∀ c : GoString, 2 ≤ c.count ':' →
        parseRangeText L sheetName c = .error .invalidCellRangeFormat)
    ∧ (∀ x y z : GoString, ∀ s0 s1 s2 : CellRange,
        parseRangeText L sheetName x = .ok s0 → parseRangeText L sheetName y = .ok s1 →
        parseRangeText L sheetName z = .ok s2 →
        ParseCellRanges L sheetName x y z = .ok [s0, s1, s2])
    ∧ (∀ x y z : GoString, ∀ spans : List CellRange,
        ParseCellRanges L sheetName x y z = .ok spans →
        ∃ s0 s1 s2, spans = [s0, s1, s2] ∧ parseRangeText L sheetName x = .ok s0
          ∧ parseRangeText L sheetName y = .ok s1 ∧ parseRangeText L sheetName z = .ok s2)
    ∧ (∀ x y z : GoString, (2 ≤ x.count ':' ∨ 2 ≤ y.count ':' ∨ 2 ≤ z.count ':') →
        ∃ e, ParseCellRanges L sheetName x y z = .error e)
    ∧ parseRangeText L sheetName "A1:B2".toList = .ok ⟨0, 1, 0, 1⟩
    ∧ parseRangeText L sheetName "A1".toList = .ok ⟨0, 0, 0, 0⟩
    ∧ parseRangeText L sheetName "A1:B2:C3".toList = .error .invalidCellRangeFormat := by
  have hA1 : parseCellRef L sheetName "A1".toList = .ok (0, 0) :=
    (parseCellRef_A1_B2 L sheetName).1
  have hB2 : parseCellRef L sheetName "B2".toList = .ok (1, 1) :=
    (parseCellRef_A1_B2 L sheetName).2
  have one : ∀ c : GoString, ':' ∉ c →
      parseRangeText L sheetName c =
        match parseCellRef L sheetName c with
        | .error e => .error e
        | .ok (row, col) => .ok ⟨row, row, col, col⟩ := by
    intro c hc
    unfold parseRangeText
    rw [Split_no_sep ':' c hc]
  have two : ∀ a b : GoString, ':' ∉ a → ':' ∉ b →
      parseRangeText L sheetName (a ++ ':' :: b) =
        match parseCellRef L sheetName a with
        | .error e => .error e
        | .ok (startRow, startCol) =>
          match parseCellRef L sheetName b with
          | .error e => .error e
          | .ok (endRow, endCol) => .ok ⟨startRow, endRow, startCol, endCol⟩ := by
    intro a b ha hb
    unfold parseRangeText
    rw [Split_one_sep ':' a b ha hb]
  refine ⟨one, two, parseRangeText_many L sheetName, ?_, ?_, ?_, ?_, ?_, ?_⟩
  · intro x y z s0 s1 s2 h0 h1 h2
    rw [ParseCellRanges_eq, h0, h1, h2]
  · intro x y z spans h
    rw [ParseCellRanges_eq] at h
    cases h0 : parseRangeText L sheetName x with
    | error e => rw [h0] at h; cases h
    | ok s0 =>
      cases h1 : parseRangeText L sheetName y with
      | error e => rw [h0, h1] at h; cases h
      | ok s1 =>
        cases h2 : parseRangeText L sheetName z with
        | error e => rw [h0, h1, h2] at h; cases h
        | ok s2 =>
          rw [h0, h1, h2] at h
          exact ⟨s0, s1, s2, (Except.ok.inj h).symm, rfl, rfl, rfl⟩
  · intro x y z h
    rw [ParseCellRanges_eq]
    cases h0 : parseRangeText L sheetName x with
    | error e => exact ⟨e, rfl⟩
    | ok s0 =>
      cases h1 : parseRangeText L sheetName y with
      | error e => exact ⟨e, rfl⟩
      | ok s1 =>
        cases h2 : parseRangeText L sheetName z with
        | error e => exact ⟨e, rfl⟩
        | ok s2 =>
          rcases h with h | h | h
          · rw [parseRangeText_many L sheetName x h] at h0; cases h0
          · rw [parseRangeText_many L sheetName y h] at h1; cases h1
          · rw [parseRangeText_many L sheetName z h] at h2; cases h2
  · have h := two "A1".toList "B2".toList (by decide) (by decide)
    rw [hA1, hB2] at h
    exact h
  · have h := one "A1".toList (by decide)
    rw [hA1] at h
    exact h
  · exact parseRangeText_many L sheetName _ (by decide)

/-- C6 at the texts `C3:D4`, `B1`, `C1`. -/
theorem C6_ParseCellRanges_parts_witness :
    ParseCellRanges asciiLib [] "C3:D4".toList "B1".toList "C1".toList
      = .ok [⟨2, 3, 2, 3⟩, ⟨0, 0, 1, 1⟩, ⟨0, 0, 2, 2⟩] :=
  (C6_ParseCellRanges_parts asciiLib []).2.2.2.1 "C3:D4".toList "B1".toList "C1".toList
    ⟨2, 3, 2, 3⟩ ⟨0, 0, 1, 1⟩ ⟨0, 0, 2, 2⟩ (by decide) (by decide) (by decide)

/-- C7 on the code: for every text without a digit character, the empty text
included, `parseCellRef` does not fail; the loop ends without a match and the
function returns row `-1` and column `0` with a nil error. -/
theorem C7_parseCellRef_no_digit {ν : Type} (L : Lib ν) (sheetName text : GoString)
    (h : ∀ c ∈ text, isDigit L c = false) :
    parseCellRef L sheetName text = .ok (-1, 0) := by
  unfold parseCellRef
  rw [splitAtFirstDigit_none L text h]
  rfl

/-- C7 at the empty text and at the text `AB`. -/
theorem C7_parseCellRef_no_digit_witness :
    parseCellRef asciiLib [] "".toList = .ok (-1, 0)
    ∧ parseCellRef asciiLib [] "AB".toList = .ok (-1, 0) :=
  ⟨C7_parseCellRef_no_digit asciiLib [] "".toList (by decide),
    C7_parseCellRef_no_digit asciiLib [] "AB".toList (by decide)⟩

/-- C8 on the code: a character before the first digit that is not a letter
does not make `parseCellRef` fail. Whenever the text from the first digit on
is an integer, the call succeeds, whatever stands before it; `$1` gives row 0
and column `-29`, and `A-1` gives row 0 and column `-20`. -/
theorem C8_parseCellRef_non_letter {ν : Type} (L : Lib ν) (sheetName : GoString) :
    (∀ (pre : GoString) (d : Char) (rest : GoString) (row : Int),
        (∀ c ∈ pre, isDigit L c = false) → isDigit L d = true → Atoi (d :: rest) = some row →
        ∃ col, parseCellRef L sheetName (pre ++ d :: rest) = .ok (wrapInt (row - 1), col))
    ∧ parseCellRef L sheetName "$1".toList = .ok (0, -29)
    ∧ parseCellRef L sheetName "A-1".toList = .ok (0, -20) := by
  refine ⟨?_, ?_, ?_⟩
  · intro pre d rest row hpre hd hrow
    rw [parseCellRef_split L sheetName pre d rest hpre hd, hrow]
    exact ⟨_, rfl⟩
  · have h := parseCellRef_split L sheetName "$".toList '1' [] (by simp [isDigit, isAsciiDigit])
      (by simp [isDigit, isAsciiDigit])
    rw [show "$1".toList = "$".toList ++ '1' :: [] from rfl, h]
    have hu : ToUpper L "$".toList = "$".toList := by simp [ToUpper, toUpperRune]
    rw [hu]
    decide
  · have h := parseCellRef_split L sheetName "A-".toList '1' [] (by simp [isDigit, isAsciiDigit])
      (by simp [isDigit, isAsciiDigit])
    rw [show "A-1".toList = "A-".toList ++ '1' :: [] from rfl, h]
    have hu : ToUpper L "A-".toList = "A-".toList := by simp [ToUpper, toUpperRune]
    rw [hu]
    decide

/-- C8 at the text `#7`, whose prefix `#` is not a letter. -/
theorem C8_parseCellRef_non_letter_witness :
    ∃ col, parseCellRef asciiLib [] ("#".toList ++ '7' :: []) = .ok (wrapInt (7 - 1), col) :=
  (C8_parseCellRef_non_letter asciiLib []).1 "#".toList '7' [] 7 (by decide) (by decide)
    (by decide)

/-- C9: when the text from the first digit character on is not a decimal
integer that fits an `int` (it holds a character other than `0..9`, or its
value is too large), `parseCellRef` fails with the row error. The boundary is
the first digit and nothing is scanned again: `1A` fails, and `A1B2` fails with
prefix `A` and suffix `1B2`. -/
theorem C9_parseCellRef_bad_row {ν : Type} (L : Lib ν) (sheetName : GoString) :
    (∀ (pre : GoString) (d : Char) (rest : GoString),
        (∀ c ∈ pre, isDigit L c = false) → isDigit L d = true →
        ((∃ c ∈ d :: rest, isAsciiDigit c = false) ∨ intMax < decimalValue (d :: rest)) →
        parseCellRef L sheetName (pre ++ d :: rest) = .error .invalidRowNumber)
    ∧ parseCellRef L sheetName "1A".toList = .error .invalidRowNumber
    ∧ splitAtFirstDigit L "A1B2".toList = some ("A".toList, "1B2".toList)
    ∧ parseCellRef L sheetName "A1B2".toList = .error .invalidRowNumber := by
  have main : ∀ (pre : GoString) (d : Char) (rest : GoString),
      (∀ c ∈ pre, isDigit L c = false) → isDigit L d = true →
      ((∃ c ∈ d :: rest, isAsciiDigit c = false) ∨ intMax < decimalValue (d :: rest)) →
      parseCellRef L sheetName (pre ++ d :: rest) = .error .invalidRowNumber := by
    intro pre d rest hpre hd hbad
    rw [parseCellRef_split L sheetName pre d rest hpre hd, Atoi_of_digit_start L d rest hd]
    by_cases hall : ∃ c ∈ d :: rest, isAsciiDigit c = false
    · rw [digitsValue_none _ _ hall]
    · have hall2 : ∀ c ∈ d :: rest, isAsciiDigit c = true := by
        intro c hc
        cases hcd : isAsciiDigit c with
        | true => rfl
        | false => exact absurd ⟨c, hc, hcd⟩ hall
      have hbig : intMax < decimalValue (d :: rest) := by
        rcases hbad with h | h
        · exact absurd h hall
        · exact h
      rw [digitsValue_eq _ _ hall2]
      have h := digits_foldl_cast (d :: rest) 0 hall2
      simp only [Nat.cast_zero] at h
      have h2 : ((List.foldl (fun a c => a * 10 + (c.toNat - 48)) 0 (d :: rest) : Nat) : Int)
          = decimalValue (d :: rest) := h
      have h3 : ¬ decimalValue (d :: rest) ≤ intMax := not_le.mpr hbig
      simp only [h2, h3, if_false]
  refine ⟨main, ?_, ?_, ?_⟩
  · exact main [] '1' "A".toList (by simp) (by simp [isDigit, isAsciiDigit])
      (Or.inl ⟨'A', by simp, by decide⟩)
  · exact splitAtFirstDigit_append L "A".toList '1' "B2".toList
      (by simp [isDigit, isAsciiDigit]) (by simp [isDigit, isAsciiDigit])
  · exact main "A".toList '1' "B2".toList (by simp [isDigit, isAsciiDigit])
      (by simp [isDigit, isAsciiDigit]) (Or.inl ⟨'B', by simp, by decide⟩)

/-- C9 at the text `C4x`, and at a row number one above the largest `int`. -/
theorem C9_parseCellRef_bad_row_witness :
    parseCellRef asciiLib [] ("C".toList ++ '4' :: "x".toList) = .error .invalidRowNumber
    ∧ parseCellRef asciiLib [] ("C".toList ++ '9' :: "223372036854775808".toList)
        = .error .invalidRowNumber :=
  ⟨(C9_parseCellRef_bad_row asciiLib []).1 "C".toList '4' "x".toList (by decide) (by decide)
      (Or.inl ⟨'x', by decide, by decide⟩),
    (C9_parseCellRef_bad_row asciiLib []).1 "C".toList '9' "223372036854775808".toList
      (by decide) (by decide) (Or.inr (by decide))⟩

/-! ### Trimming -/

theorem head?_dropWhile_false {α : Type} (p : α → Bool) (l : List α) (c : α)
    (h : (l.dropWhile p).head? = some c) : p c = false := by
  have := List.head?_dropWhile_not p l
  rw [h] at this
  exact this

theorem TrimSpace_spec {ν : Type} (L : Lib ν) (s : GoString) : IsTrimOf L (TrimSpace L s) s := by
  have e1 : s = s.takeWhile (isSpace L) ++ s.dropWhile (isSpace L) :=
    (List.takeWhile_append_dropWhile (isSpace L) s).symm
  have e2 : (s.dropWhile (isSpace L)).reverse
      = ((s.dropWhile (isSpace L)).reverse).takeWhile (isSpace L)
        ++ ((s.dropWhile (isSpace L)).reverse).dropWhile (isSpace L) :=
    (List.takeWhile_append_dropWhile (isSpace L) _).symm
  have e3 : s.dropWhile (isSpace L)
      = TrimSpace L s ++ (((s.dropWhile (isSpace L)).reverse).takeWhile (isSpace L)).reverse := by
    have := congrArg List.reverse e2
    rw [List.reverse_reverse, List.reverse_append] at this
    exact this
  refine ⟨s.takeWhile (isSpace L),
    (((s.dropWhile (isSpace L)).reverse).takeWhile (isSpace L)).reverse, ?_, ?_, ?_, ?_, ?_⟩
  · rw [List.append_assoc, ← e3]
    exact e1
  · intro c hc
    exact List.mem_takeWhile_imp hc
  · intro c hc
    exact List.mem_takeWhile_imp (List.mem_reverse.mp hc)
  · intro c hc
    have hne : TrimSpace L s ≠ [] := by
      intro hnil
      rw [hnil] at hc
      cases hc
    have hh : (s.dropWhile (isSpace L)).head? = some c := by
      rw [e3, List.head?_append_of_ne_nil _ hne]
      exact hc
    exact head?_dropWhile_false (isSpace L) s c hh
  · intro c hc
    have hh : (((s.dropWhile (isSpace L)).reverse).dropWhile (isSpace L)).head? = some c := by
      have : (TrimSpace L s).getLast? = some c := hc
      unfold TrimSpace at this
      rw [List.getLast?_reverse] at this
      exact this
    exact head?_dropWhile_false (isSpace L) _ c hh

theorem IsTrimOf_prefix_eq {ν : Type} (L : Lib ν) (p1 p2 r1 r2 : GoString)
    (h : p1 ++ r1 = p2 ++ r2) (hp1 : ∀ c ∈ p1, isSpace L c = true)
    (hp2 : ∀ c ∈ p2, isSpace L c = true)
    (hr1 : ∀ c, r1.head? = some c → isSpace L c = false)
    (hr2 : ∀ c, r2.head? = some c → isSpace L c = false)
    (hn1 : r1 ≠ []) (hn2 : r2 ≠ []) : p1 = p2 ∧ r1 = r2 := by
  rcases List.append_eq_append_iff.mp h with ⟨a, e1, e2⟩ | ⟨a, e1, e2⟩
  · cases a with
    | nil =>
      simp only [List.append_nil, List.nil_append] at e1 e2
      exact ⟨e1.symm, e2⟩
    | cons x xs =>
      have hx : isSpace L x = true := hp2 x (by rw [e1]; simp)
      have hh : r1.head? = some x := by rw [e2]; rfl
      rw [hr1 x hh] at hx
      cases hx
  · cases a with
    | nil =>
      simp only [List.append_nil, List.nil_append] at e1 e2
      exact ⟨e1, e2.symm⟩
    | cons x xs =>
      have hx : isSpace L x = true := hp1 x (by rw [e1]; simp)
      have hh : r2.head? = some x := by rw [e2]; rfl
      rw [hr2 x hh] at hx
      cases hx

/-- The text with leading and trailing white space removed is unique: `IsTrimOf`
determines it. -/
theorem IsTrimOf_unique {ν : Type} (L : Lib ν) (t1 t2 s : GoString)
    (h1 : IsTrimOf L t1 s) (h2 : IsTrimOf L t2 s) : t1 = t2 := by
  obtain ⟨p1, q1, e1, hp1, hq1, hh1, hl1⟩ := h1
  obtain ⟨p2, q2, e2, hp2, hq2, hh2, hl2⟩ := h2
  have allsp : ∀ (t p q : GoString), s = p ++ t ++ q → t = [] →
      (∀ c ∈ p, isSpace L c = true) → (∀ c ∈ q, isSpace L c = true) →
      ∀ c ∈ s, isSpace L c = true := by
    intro t p q e ht hp hq c hc
    rw [e, ht] at hc
    simp only [List.append_nil, List.mem_append] at hc
    rcases hc with hc | hc
    · exact hp c hc
    · exact hq c hc
  have nonsp : ∀ (t p q : GoString), s = p ++ t ++ q → t ≠ [] →
      (∀ c, t.head? = some c → isSpace L c = false) → ∃ c ∈ s, isSpace L c = false := by
    intro t p q e ht hh
    cases t with
    | nil => exact absurd rfl ht
    | cons x xs => exact ⟨x, by rw [e]; simp, hh x rfl⟩
  by_cases n1 : t1 = []
  · by_cases n2 : t2 = []
    · rw [n1, n2]
    · obtain ⟨c, hc, hf⟩ := nonsp t2 p2 q2 e2 n2 hh2
      rw [allsp t1 p1 q1 e1 n1 hp1 hq1 c hc] at hf
      cases hf
  · by_cases n2 : t2 = []
    · obtain ⟨c, hc, hf⟩ := nonsp t1 p1 q1 e1 n1 hh1
      rw [allsp t2 p2 q2 e2 n2 hp2 hq2 c hc] at hf
      cases hf
    · have e : p1 ++ (t1 ++ q1) = p2 ++ (t2 ++ q2) := by
        rw [← List.append_assoc, ← List.append_assoc, ← e1, ← e2]
      have hd1 : ∀ c, (t1 ++ q1).head? = some c → isSpace L c = false := by
        intro c hc
        rw [List.head?_append_of_ne_nil _ n1] at hc
        exact hh1 c hc
      have hd2 : ∀ c, (t2 ++ q2).head? = some c → isSpace L c = false := by
        intro c hc
        rw [List.head?_append_of_ne_nil _ n2] at hc
        exact hh2 c hc
      obtain ⟨_, e3⟩ := IsTrimOf_prefix_eq L p1 p2 _ _ e hp1 hp2 hd1 hd2
        (by simp [n1]) (by simp [n2])
      have e4 : q1.reverse ++ t1.reverse = q2.reverse ++ t2.reverse := by
        rw [← List.reverse_append, ← List.reverse_append, e3]
      have hl1r : ∀ c, t1.reverse.head? = some c → isSpace L c = false := by
        intro c hc
        rw [List.head?_reverse] at hc
        exact hl1 c hc
      have hl2r : ∀ c, t2.reverse.head? = some c → isSpace L c = false := by
        intro c hc
        rw [List.head?_reverse] at hc
        exact hl2 c hc
      obtain ⟨_, e5⟩ := IsTrimOf_prefix_eq L q1.reverse q2.reverse _ _ e4
        (fun c hc => hq1 c (List.mem_reverse.mp hc))
        (fun c hc => hq2 c (List.mem_reverse.mp hc)) hl1r hl2r
        (by simp [n1]) (by simp [n2])
      exact List.reverse_injective e5

/-! ## Claims on the comparison -/

/-- C1 on the code: a region whose value range is the single cell `(r, c)`, in
bounds in both grids with different trimmed strings, yields no record when its
title or time range parses to a negative row (as `A0` does): the lookup of the
title or time cell indexes the current grid at that row and the run ends in
an index out of range. -/
theorem C1_negative_lookup_row {ν : Type} (L : Lib ν) (current previous : Grid ν)
    (sheetName : GoString) (cellConfig : PreDefinedCells) (r c : Int) (cr1 cr2 : CellRange)
    (h0 : parseRangeText L sheetName cellConfig.CellRange = .ok ⟨r, r, c, c⟩)
    (h1 : parseRangeText L sheetName cellConfig.TitleRange = .ok cr1)
    (h2 : parseRangeText L sheetName cellConfig.TimeRange = .ok cr2)
    (hb1 : inBounds current r c = true) (hb2 : inBounds previous r c = true)
    (hne : textAt L previous r c ≠ textAt L current r c)
    (hneg : cr1.StartRow < 0 ∨ cr2.StartRow < 0) :
    CompareSpreadsheetsAndGetDiff L current previous sheetName [cellConfig]
      = .error .indexOutOfRange :=
  Compare_first_fault L current previous sheetName cellConfig [] ⟨r, r, c, c⟩ cr1 cr2 _ h0 h1 h2
    (regionBody_neg_lookup L current previous sheetName cr1 cr2 r c _ hb1 hneg)

/-- C1 at the region `A1` with title range `A0`, current grid `[["x"]]` and
previous grid `[["y"]]`. -/
theorem C1_negative_lookup_row_witness :
    textAt asciiLib [[Value.str "y".toList]] 0 0 ≠ textAt asciiLib [[Value.str "x".toList]] 0 0
    ∧ CompareSpreadsheetsAndGetDiff asciiLib [[Value.str "x".toList]] [[Value.str "y".toList]]
        "s".toList [⟨"A1".toList, "A0".toList, "A1".toList⟩] = .error .indexOutOfRange :=
  ⟨by decide,
    C1_negative_lookup_row asciiLib [[Value.str "x".toList]] [[Value.str "y".toList]] "s".toList
      ⟨"A1".toList, "A0".toList, "A1".toList⟩ 0 0 ⟨-1, -1, 0, 0⟩ ⟨0, 0, 0, 0⟩
      (by decide) (by decide) (by decide) (by decide) (by decide) (by decide)
      (Or.inl (by decide))⟩

/-- C2 on the code: a region whose value range is the single cell `(r, c)`, in
bounds in the current grid and out of bounds in the previous one, yields no
record when its title or time range parses to a negative row: the run ends in
an index out of range at the lookup of the title or time cell. -/
theorem C2_negative_lookup_row {ν : Type} (L : Lib ν) (current previous : Grid ν)
    (sheetName : GoString) (cellConfig : PreDefinedCells) (r c : Int) (cr1 cr2 : CellRange)
    (h0 : parseRangeText L sheetName cellConfig.CellRange = .ok ⟨r, r, c, c⟩)
    (h1 : parseRangeText L sheetName cellConfig.TitleRange = .ok cr1)
    (h2 : parseRangeText L sheetName cellConfig.TimeRange = .ok cr2)
    (hb1 : inBounds current r c = true) (hb2 : inBounds previous r c = false)
    (hneg : cr1.StartRow < 0 ∨ cr2.StartRow < 0) :
    CompareSpreadsheetsAndGetDiff L current previous sheetName [cellConfig]
      = .error .indexOutOfRange :=
  Compare_first_fault L current previous sheetName cellConfig [] ⟨r, r, c, c⟩ cr1 cr2 _ h0 h1 h2
    (regionBody_neg_lookup L current previous sheetName cr1 cr2 r c _ hb1 hneg)

/-- C2 at the region `A1` with time range `B0`, current grid `[["x"]]` and an
empty previous grid. -/
theorem C2_negative_lookup_row_witness :
    CompareSpreadsheetsAndGetDiff asciiLib [[Value.str "x".toList]] []
        "s".toList [⟨"A1".toList, "A1".toList, "B0".toList⟩] = .error .indexOutOfRange :=
  C2_negative_lookup_row asciiLib [[Value.str "x".toList]] [] "s".toList
    ⟨"A1".toList, "A1".toList, "B0".toList⟩ 0 0 ⟨0, 0, 0, 0⟩ ⟨-1, -1, 1, 1⟩
    (by decide) (by decide) (by decide) (by decide) (by decide) (Or.inr (by decide))

/-- C3: every record `CompareSpreadsheetsAndGetDiff` returns has its
`(Row, Col)` in bounds in the current grid, so a coordinate that is out of
bounds in the current grid gets no record, whatever the previous grid holds;
for a region of the single cell `(r, c)` out of bounds in the current grid a
returned list is empty, and with `0 <= r`, `0 <= c` and `c` below the largest
`int` the call does return, with the empty list. -/
theorem C3_absent_in_current {ν : Type} (L : Lib ν) (current previous : Grid ν)
    (sheetName : GoString) :
    (∀ (regions : List PreDefinedCells) (recs : List ChangedCell),
        CompareSpreadsheetsAndGetDiff L current previous sheetName regions = .ok recs →
        (∀ x ∈ recs, inBounds current x.Cell.Row x.Cell.Col = true)
        ∧ (∀ r c, inBounds current r c = false → ∀ x ∈ recs, ¬ (x.Cell.Row = r ∧ x.Cell.Col = c)))
    ∧ (∀ (cellConfig : PreDefinedCells) (r c : Int) (recs : List ChangedCell),
        parseRangeText L sheetName cellConfig.CellRange = .ok ⟨r, r, c, c⟩ →
        inBounds current r c = false →
        CompareSpreadsheetsAndGetDiff L current previous sheetName [cellConfig] = .ok recs →
        recs = [])
    ∧ (∀ (cellConfig : PreDefinedCells) (r c : Int) (cr1 cr2 : CellRange),
        parseRangeText L sheetName cellConfig.CellRange = .ok ⟨r, r, c, c⟩ →
        parseRangeText L sheetName cellConfig.TitleRange = .ok cr1 →
        parseRangeText L sheetName cellConfig.TimeRange = .ok cr2 →
        0 ≤ r → 0 ≤ c → c < intMax → inBounds current r c = false →
        CompareSpreadsheetsAndGetDiff L current previous sheetName [cellConfig] = .ok []) := by
  have key : ∀ (regions : List PreDefinedCells) (recs : List ChangedCell),
      CompareSpreadsheetsAndGetDiff L current previous sheetName regions = .ok recs →
      ∀ x ∈ recs, inBounds current x.Cell.Row x.Cell.Col = true := by
    intro regions recs h x hx
    rw [Compare_ok L current previous sheetName regions recs h] at hx
    obtain ⟨cfg, _, hx2⟩ := List.mem_flatMap.mp hx
    unfold regionRecords at hx2
    split at hx2
    · next cr0 cr1 cr2 _ _ _ =>
      unfold spanRecords at hx2
      obtain ⟨row, _, hx3⟩ := List.mem_flatMap.mp hx2
      obtain ⟨col, _, hx4⟩ := List.mem_flatMap.mp hx3
      obtain ⟨hb, _, e1, e2, _⟩ := mem_recordsAt L current previous sheetName cr1 cr2 row col x hx4
      rw [e1, e2]
      exact hb
    · simp at hx2
  refine ⟨?_, ?_, ?_⟩
  · intro regions recs h
    refine ⟨key regions recs h, ?_⟩
    rintro r c hout x hx ⟨e1, e2⟩
    have := key regions recs h x hx
    rw [e1, e2, hout] at this
    cases this
  · intro cfg r c recs h0 hout h
    rw [Compare_ok L current previous sheetName [cfg] recs h]
    simp only [List.flatMap_cons, List.flatMap_nil, List.append_nil]
    rcases ParseCellRanges_cases L sheetName cfg with ⟨e, _, hnone⟩ | ⟨cr0, cr1, cr2, e0, e1, e2⟩
    · exact hnone current previous
    · rw [regionRecords_parsed L current previous sheetName cfg cr0 cr1 cr2 e0 e1 e2]
      rw [h0] at e0
      have e : cr0 = ⟨r, r, c, c⟩ := (Except.ok.inj e0).symm
      subst e
      rw [spanRecords_single]
      unfold recordsAt
      simp [hout]
  · intro cfg r c cr1 cr2 h0 h1 h2 hr hc hmax hout
    rw [Compare_single_cell L current previous sheetName cfg r c cr1 cr2 h0 h1 h2 hr hc hmax
      (fun hb => by rw [hout] at hb; cases hb)]
    unfold recordsAt
    simp [hout]

/-- C3 at the region `B2` on the current grid `[["x"]]`, with a previous grid
that holds a value at `B2`. -/
theorem C3_absent_in_current_witness :
    inBounds ([[Value.str "x".toList]] : Grid Nat) 1 1 = false
    ∧ CompareSpreadsheetsAndGetDiff asciiLib [[Value.str "x".toList]]
        [[Value.nil, Value.nil], [Value.nil, Value.str "old".toList]] "s".toList
        [⟨"B2".toList, "A1".toList, "A1".toList⟩] = .ok [] :=
  ⟨by decide,
    (C3_absent_in_current asciiLib [[Value.str "x".toList]]
        [[Value.nil, Value.nil], [Value.nil, Value.str "old".toList]] "s".toList).2.2
      ⟨"B2".toList, "A1".toList, "A1".toList⟩ 1 1 ⟨0, 0, 0, 0⟩ ⟨0, 0, 0, 0⟩
      (by decide) (by decide) (by decide) (by decide) (by decide) (by decide) (by decide)⟩

/-- C4: for a region whose three texts parse, every record the comparison
returns for it has `Title` equal to the trimmed string of the current-grid cell
at the start of the span parsed from the `TitleRange` text, `Time` equal to the
trimmed string of the current-grid cell at the start of the span parsed from
the `TimeRange` text, and `Date` equal to the sheet name. The text of a
coordinate out of bounds in the current grid is the empty string; the text of
a coordinate in bounds is that of the cell `sheet[row][col]`: empty for nil,
and otherwise the printed form of the value with its leading and trailing
white space removed, that is, the printed form is the text between two runs of
white space and the text neither starts nor ends with white space, which
determines the text. A string prints as itself, the white space of Latin-1
is tab, line feed, vertical tab, form feed, carriage return, space, U+0085 and
U+00A0, and the string made of a tab, a space, `T`, a space and a line feed
has the text `T`. The spans `ParseCellRanges` returns for the call of the comparison are
those of `CellRange`, `TitleRange`, `TimeRange`, in this order, so title and
time are not exchanged. The same holds for the records of a list of regions,
each with the title and time of one of the regions of the list. -/
theorem C4_title_time_date {ν : Type} (L : Lib ν) (current previous : Grid ν)
    (sheetName : GoString) :
    (∀ (cellConfig : PreDefinedCells) (cr0 cr1 cr2 : CellRange) (recs : List ChangedCell),
        parseRangeText L sheetName cellConfig.CellRange = .ok cr0 →
        parseRangeText L sheetName cellConfig.TitleRange = .ok cr1 →
        parseRangeText L sheetName cellConfig.TimeRange = .ok cr2 →
        CompareSpreadsheetsAndGetDiff L current previous sheetName [cellConfig] = .ok recs →
        ∀ x ∈ recs, x.Cell.Title = textAt L current cr1.StartRow cr1.StartCol
          ∧ x.Cell.Time = textAt L current cr2.StartRow cr2.StartCol
          ∧ x.Date = sheetName)
    ∧ (∀ (cellConfig : PreDefinedCells) (spans : List CellRange),
        ParseCellRanges L sheetName cellConfig.CellRange cellConfig.TitleRange
          cellConfig.TimeRange = .ok spans →
        ∃ cr0 cr1 cr2, spans = [cr0, cr1, cr2]
          ∧ parseRangeText L sheetName cellConfig.CellRange = .ok cr0
          ∧ parseRangeText L sheetName cellConfig.TitleRange = .ok cr1
          ∧ parseRangeText L sheetName cellConfig.TimeRange = .ok cr2)
    ∧ (∀ row col : Int, inBounds current row col = false → textAt L current row col = [])
    ∧ (∀ row col : Int, inBounds current row col = true →
        ∃ v, cellAt current row col = .ok v ∧ textAt L current row col = interfaceToString L v
          ∧ (v = Value.nil → textAt L current row col = [])
          ∧ (v ≠ Value.nil → IsTrimOf L (textAt L current row col) (Sprint L v))
          ∧ (∀ s, v = Value.str s → IsTrimOf L (textAt L current row col) s))
    ∧ (∀ (regions : List PreDefinedCells) (recs : List ChangedCell),
        CompareSpreadsheetsAndGetDiff L current previous sheetName regions = .ok recs →
        ∀ x ∈ recs, ∃ cellConfig ∈ regions, ∃ cr1 cr2,
          parseRangeText L sheetName cellConfig.TitleRange = .ok cr1
          ∧ parseRangeText L sheetName cellConfig.TimeRange = .ok cr2
          ∧ x.Cell.Title = textAt L current cr1.StartRow cr1.StartCol
          ∧ x.Cell.Time = textAt L current cr2.StartRow cr2.StartCol
          ∧ x.Date = sheetName)
    ∧ (∀ t1 t2 s : GoString, IsTrimOf L t1 s → IsTrimOf L t2 s → t1 = t2)
    ∧ (∀ s : GoString, Sprint L (Value.str s) = s)
    ∧ (∀ c : Char, c.toNat ≤ 255 →
        (isSpace L c = true ↔ (c.toNat = 9 ∨ c.toNat = 10 ∨ c.toNat = 11 ∨ c.toNat = 12
          ∨ c.toNat = 13 ∨ c.toNat = 32 ∨ c.toNat = 133 ∨ c.toNat = 160)))
    ∧ interfaceToString L (Value.str (Char.ofNat 9 :: " T ".toList ++ [Char.ofNat 10]))
        = "T".toList := by
  have key : ∀ (regions : List PreDefinedCells) (recs : List ChangedCell),
      CompareSpreadsheetsAndGetDiff L current previous sheetName regions = .ok recs →
      ∀ x ∈ recs, ∃ cellConfig ∈ regions, ∃ cr1 cr2,
        parseRangeText L sheetName cellConfig.TitleRange = .ok cr1
        ∧ parseRangeText L sheetName cellConfig.TimeRange = .ok cr2
        ∧ x.Cell.Title = textAt L current cr1.StartRow cr1.StartCol
        ∧ x.Cell.Time = textAt L current cr2.StartRow cr2.StartCol
        ∧ x.Date = sheetName := by
    intro regions recs h x hx
    rw [Compare_ok L current previous sheetName regions recs h] at hx
    obtain ⟨cfg, hcfg, hx2⟩ := List.mem_flatMap.mp hx
    rcases ParseCellRanges_cases L sheetName cfg with ⟨e, _, hnone⟩ | ⟨cr0, cr1, cr2, e0, e1, e2⟩
    · rw [hnone current previous] at hx2
      cases hx2
    · rw [regionRecords_parsed L current previous sheetName cfg cr0 cr1 cr2 e0 e1 e2] at hx2
      unfold spanRecords at hx2
      obtain ⟨row, _, hx3⟩ := List.mem_flatMap.mp hx2
      obtain ⟨col, _, hx4⟩ := List.mem_flatMap.mp hx3
      obtain ⟨_, hd, _, _, _, htime, htitle, _⟩ :=
        mem_recordsAt L current previous sheetName cr1 cr2 row col x hx4
      exact ⟨cfg, hcfg, cr1, cr2, e1, e2, htitle, htime, hd⟩
  have trim : ∀ v : Value ν, v ≠ Value.nil →
      IsTrimOf L (interfaceToString L v) (Sprint L v) := by
    intro v hv
    cases v with
    | nil => exact absurd rfl hv
    | str s => exact TrimSpace_spec L _
    | bool b => exact TrimSpace_spec L _
    | other x => exact TrimSpace_spec L _
  refine ⟨?_, ?_, textAt_out L current, ?_, key, IsTrimOf_unique L, fun _ => rfl, ?_, ?_⟩
  · intro cfg cr0 cr1 cr2 recs h0 h1 h2 h x hx
    obtain ⟨cfg2, hmem, t, m, e1, e2, r1, r2, r3⟩ := key [cfg] recs h x hx
    have hc : cfg2 = cfg := List.mem_singleton.mp hmem
    subst hc
    rw [h1] at e1
    rw [h2] at e2
    have a1 : cr1 = t := Except.ok.inj e1
    have a2 : cr2 = m := Except.ok.inj e2
    subst a1 a2
    exact ⟨r1, r2, r3⟩
  · intro cfg spans h
    rcases ParseCellRanges_cases L sheetName cfg with ⟨e, he, _⟩ | ⟨cr0, cr1, cr2, e0, e1, e2⟩
    · rw [he] at h; cases h
    · rw [ParseCellRanges_parsed L sheetName cfg cr0 cr1 cr2 e0 e1 e2] at h
      exact ⟨cr0, cr1, cr2, (Except.ok.inj h).symm, e0, e1, e2⟩
  · intro row col hb
    obtain ⟨v, hv, hv2⟩ := cellAt_inBounds L current row col hb
    refine ⟨v, hv, hv2.symm, ?_, ?_, ?_⟩
    · intro hnil
      rw [← hv2, hnil]
      rfl
    · intro hne
      rw [← hv2]
      exact trim v hne
    · intro s hs
      rw [← hv2, hs]
      exact TrimSpace_spec L s
  · intro c hc
    unfold isSpace
    simp only [hc, if_true, decide_eq_true_eq]
  · have h9 : isSpace L (Char.ofNat 9) = true := rfl
    have h10 : isSpace L (Char.ofNat 10) = true := rfl
    have h32 : isSpace L ' ' = true := rfl
    have hT : isSpace L 'T' = false := rfl
    simp [interfaceToString, Sprint, TrimSpace, List.dropWhile, h9, h10, h32, hT]

/-- C4 at the region `A1` with title range `B1` and time range `C1`, on the
current grid whose first row holds ` a ` between spaces, `T` after a tab and a
space and before a space, and `9:00` after two spaces and before a line feed,
and the previous grid `[["b"]]`: the record carries `a`, `T` and `9:00`
without the white space. -/
theorem C4_title_time_date_witness :
    CompareSpreadsheetsAndGetDiff asciiLib
        [[Value.str " a ".toList, Value.str (Char.ofNat 9 :: " T ".toList),
          Value.str ("  9:00".toList ++ [Char.ofNat 10])]]
        [[Value.str "b".toList]] "s".toList [⟨"A1".toList, "B1".toList, "C1".toList⟩]
      = .ok [⟨"s".toList, ⟨0, 0, "a".toList, "9:00".toList, "T".toList⟩, "b".toList⟩]
    ∧ "T".toList = textAt asciiLib
        [[Value.str " a ".toList, Value.str (Char.ofNat 9 :: " T ".toList),
          Value.str ("  9:00".toList ++ [Char.ofNat 10])]] 0 1
    ∧ "9:00".toList = textAt asciiLib
        [[Value.str " a ".toList, Value.str (Char.ofNat 9 :: " T ".toList),
          Value.str ("  9:00".toList ++ [Char.ofNat 10])]] 0 2
    ∧ "s".toList = "s".toList :=
  ⟨by decide,
    (C4_title_time_date asciiLib
        [[Value.str " a ".toList, Value.str (Char.ofNat 9 :: " T ".toList),
          Value.str ("  9:00".toList ++ [Char.ofNat 10])]]
        [[Value.str "b".toList]] "s".toList).1
      ⟨"A1".toList, "B1".toList, "C1".toList⟩ ⟨0, 0, 0, 0⟩ ⟨0, 0, 1, 1⟩ ⟨0, 0, 2, 2⟩
      [⟨"s".toList, ⟨0, 0, "a".toList, "9:00".toList, "T".toList⟩, "b".toList⟩]
      (by decide) (by decide) (by decide) (by decide)
      ⟨"s".toList, ⟨0, 0, "a".toList, "9:00".toList, "T".toList⟩, "b".toList⟩
      (List.mem_singleton.mpr rfl)⟩

/-- C10 on the code: a malformed region can abort the whole comparison. With
the value range `A0` or the empty value range (both parse, to row `-1`) the run
ends in an index out of range for all grids, whatever regions follow; with the
value range `$1` (which parses to column `-29`) it does so for every current
grid that has a first row. -/
theorem C10_malformed_region_aborts {ν : Type} (L : Lib ν) (sheet1 sheet2 : Grid ν)
    (sheetName : GoString) (rest : List PreDefinedCells) :
    CompareSpreadsheetsAndGetDiff L sheet1 sheet2 sheetName
        (⟨"A0".toList, "A1".toList, "A1".toList⟩ :: rest) = .error .indexOutOfRange
    ∧ CompareSpreadsheetsAndGetDiff L sheet1 sheet2 sheetName
        (⟨"".toList, "A1".toList, "A1".toList⟩ :: rest) = .error .indexOutOfRange
    ∧ (∀ (row0 : List (Value ν)) (more : Grid ν),
        CompareSpreadsheetsAndGetDiff L (row0 :: more) sheet2 sheetName
          (⟨"$1".toList, "A1".toList, "A1".toList⟩ :: rest) = .error .indexOutOfRange) := by
  refine ⟨?_, ?_, ?_⟩
  · exact Compare_first_fault L sheet1 sheet2 sheetName _ rest ⟨-1, -1, 0, 0⟩ ⟨0, 0, 0, 0⟩
      ⟨0, 0, 0, 0⟩ _ (parseRangeText_A0 L sheetName) (parseRangeText_A1 L sheetName)
      (parseRangeText_A1 L sheetName)
      (regionBody_neg_row L sheet1 sheet2 sheetName _ _ _ _ (by decide) (by decide) (by decide))
  · exact Compare_first_fault L sheet1 sheet2 sheetName _ rest ⟨-1, -1, 0, 0⟩ ⟨0, 0, 0, 0⟩
      ⟨0, 0, 0, 0⟩ _ (parseRangeText_empty L sheetName) (parseRangeText_A1 L sheetName)
      (parseRangeText_A1 L sheetName)
      (regionBody_neg_row L sheet1 sheet2 sheetName _ _ _ _ (by decide) (by decide) (by decide))
  · intro row0 more
    exact Compare_first_fault L (row0 :: more) sheet2 sheetName _ rest ⟨0, 0, -29, -29⟩
      ⟨0, 0, 0, 0⟩ ⟨0, 0, 0, 0⟩ _ (parseRangeText_dollar L sheetName)
      (parseRangeText_A1 L sheetName) (parseRangeText_A1 L sheetName)
      (regionBody_neg_col L (row0 :: more) sheet2 sheetName _ _ _ _ (by decide)
        (by unfold len; simp only [List.length_cons]; push_cast; omega) (by decide)
        (by decide) (by decide))

/-! ## Lemmas on region lists -/

theorem DiffState.app_empty (s : DiffState) : s.app ⟨[], []⟩ = s := by
  cases s; simp [DiffState.app]

theorem DiffState.empty_app (d : DiffState) : DiffState.app ⟨[], []⟩ d = d := by
  cases d; simp [DiffState.app]

theorem DiffState.app_assoc (s a b : DiffState) : (s.app a).app b = s.app (a.app b) := by
  simp [DiffState.app, List.append_assoc]

theorem cellBody_framed {ν : Type} (L : Lib ν) (sheet1 sheet2 : Grid ν) (sheetName : GoString)
    (cr1 cr2 : CellRange) (row col : Int) :
    Framed (cellBody L sheet1 sheet2 sheetName cr1 cr2 row col) := by
  intro s
  unfold cellBody
  cases cellGuard sheet1 row col with
  | error f => rfl
  | ok b =>
    cases b with
    | false => simp only [DiffState.app_empty]
    | true =>
      simp only
      cases cellAt sheet1 row col with
      | error f => rfl
      | ok v =>
        simp only
        cases guardedText L sheet1 cr2.StartRow cr2.StartCol with
        | error f => rfl
        | ok time =>
          simp only
          cases guardedText L sheet1 cr1.StartRow cr1.StartCol with
          | error f => rfl
          | ok title =>
            simp only
            cases cellGuard sheet2 row col with
            | error f => rfl
            | ok b2 =>
              cases b2 with
              | false => simp [DiffState.app]
              | true =>
                simp only
                cases cellAt sheet2 row col with
                | error f => rfl
                | ok old =>
                  simp only
                  split <;> simp [DiffState.app]

theorem iterate_framed (body : Int → DiffState → Except Fault DiffState)
    (hb : ∀ j, Framed (body j)) (n : Nat) (i : Int) : Framed (iterate body n i) := by
  induction n generalizing i with
  | zero =>
    intro s
    simp only [iterate, DiffState.app_empty]
  | succ n ih =>
    intro s
    simp only [iterate]
    rw [hb i s]
    cases hd : body i ⟨[], []⟩ with
    | error f => rfl
    | ok d =>
      simp only
      rw [ih (i + 1) (s.app d), ih (i + 1) d]
      cases iterate body n (i + 1) ⟨[], []⟩ with
      | error f => rfl
      | ok e => simp only [DiffState.app_assoc]

theorem loopFrom_framed (body : Int → DiffState → Except Fault DiffState)
    (hb : ∀ j, Framed (body j)) (n : Nat) (i : Int) : Framed (loopFrom body n i) := by
  induction n generalizing i with
  | zero =>
    intro s
    simp only [loopFrom, DiffState.app_empty]
  | succ n ih =>
    intro s
    simp only [loopFrom]
    rw [hb i s]
    cases hd : body i ⟨[], []⟩ with
    | error f => rfl
    | ok d =>
      simp only
      by_cases hi : i = intMax
      · simp only [hi, if_true]
        rw [iterate_framed body hb _ intMin (s.app d), iterate_framed body hb _ intMin d]
        cases iterate body 18446744073709551616 intMin ⟨[], []⟩ with
        | error f => rfl
        | ok e => rfl
      · simp only [hi, if_false]
        rw [ih (i + 1) (s.app d), ih (i + 1) d]
        cases loopFrom body n (i + 1) ⟨[], []⟩ with
        | error f => rfl
        | ok e => simp only [DiffState.app_assoc]

theorem regionBody_framed {ν : Type} (L : Lib ν) (sheet1 sheet2 : Grid ν) (sheetName : GoString)
    (cellRange : List CellRange) : Framed (regionBody L sheet1 sheet2 sheetName cellRange) := by
  intro s
  unfold regionBody
  split
  · next cr0 cr1 cr2 =>
    unfold forLoop
    exact loopFrom_framed _ (fun row => loopFrom_framed _
      (fun col => cellBody_framed L sheet1 sheet2 sheetName cr1 cr2 row col) _ _) _ _ s
  · rfl

theorem regionsLoop_framed {ν : Type} (L : Lib ν) (sheet1 sheet2 : Grid ν) (sheetName : GoString)
    (regions : List PreDefinedCells) : Framed (regionsLoop L sheet1 sheet2 sheetName regions) := by
  induction regions with
  | nil =>
    intro s
    simp only [regionsLoop, DiffState.app_empty]
  | cons cfg rest ih =>
    intro s
    simp only [regionsLoop]
    cases ParseCellRanges L sheetName cfg.CellRange cfg.TitleRange cfg.TimeRange with
    | error e => exact ih s
    | ok cellRange =>
      simp only
      rw [regionBody_framed L sheet1 sheet2 sheetName cellRange s]
      cases regionBody L sheet1 sheet2 sheetName cellRange ⟨[], []⟩ with
      | error f => rfl
      | ok d =>
        simp only
        rw [ih (s.app d), ih d]
        cases regionsLoop L sheet1 sheet2 sheetName rest ⟨[], []⟩ with
        | error f => rfl
        | ok e => simp only [DiffState.app_assoc]

theorem regionsLoop_append {ν : Type} (L : Lib ν) (sheet1 sheet2 : Grid ν) (sheetName : GoString)
    (l1 l2 : List PreDefinedCells) (s : DiffState) :
    regionsLoop L sheet1 sheet2 sheetName (l1 ++ l2) s =
      match regionsLoop L sheet1 sheet2 sheetName l1 s with
      | .error f => .error f
      | .ok s1 => regionsLoop L sheet1 sheet2 sheetName l2 s1 := by
  induction l1 generalizing s with
  | nil => simp only [List.nil_append, regionsLoop]
  | cons cfg rest ih =>
    simp only [List.cons_append, regionsLoop]
    cases ParseCellRanges L sheetName cfg.CellRange cfg.TitleRange cfg.TimeRange with
    | error e => exact ih s
    | ok cellRange =>
      simp only
      cases regionBody L sheet1 sheet2 sheetName cellRange s with
      | error f => rfl
      | ok s1 => exact ih s1

theorem Compare_append {ν : Type} (L : Lib ν) (sheet1 sheet2 : Grid ν) (sheetName : GoString)
    (l1 l2 : List PreDefinedCells) :
    CompareSpreadsheetsAndGetDiff L sheet1 sheet2 sheetName (l1 ++ l2)
      = seqResults (CompareSpreadsheetsAndGetDiff L sheet1 sheet2 sheetName l1)
          (CompareSpreadsheetsAndGetDiff L sheet1 sheet2 sheetName l2) := by
  unfold CompareSpreadsheetsAndGetDiff seqResults
  rw [regionsLoop_append]
  cases h1 : regionsLoop L sheet1 sheet2 sheetName l1 ⟨[], []⟩ with
  | error f => rfl
  | ok s1 =>
    simp only
    rw [regionsLoop_framed L sheet1 sheet2 sheetName l2 s1]
    cases regionsLoop L sheet1 sheet2 sheetName l2 ⟨[], []⟩ with
    | error f => rfl
    | ok s2 => simp [DiffState.app]

theorem regionsLoop_filter {ν : Type} (L : Lib ν) (sheet1 sheet2 : Grid ν) (sheetName : GoString)
    (regions : List PreDefinedCells) (s : DiffState) :
    regionsLoop L sheet1 sheet2 sheetName (regions.filter (parses L sheetName)) s
      = regionsLoop L sheet1 sheet2 sheetName regions s := by
  induction regions generalizing s with
  | nil => rfl
  | cons cfg rest ih =>
    cases hp : ParseCellRanges L sheetName cfg.CellRange cfg.TitleRange cfg.TimeRange with
    | error e =>
      have hf : parses L sheetName cfg = false := by unfold parses; rw [hp]
      simp only [List.filter_cons, hf, Bool.false_eq_true, if_false, regionsLoop, hp]
      exact ih s
    | ok cellRange =>
      have hf : parses L sheetName cfg = true := by unfold parses; rw [hp]
      simp only [List.filter_cons, hf, if_true, regionsLoop, hp]
      cases regionBody L sheet1 sheet2 sheetName cellRange s with
      | error f => rfl
      | ok s1 => exact ih s1


theorem Compare_nil {ν : Type} (L : Lib ν) (sheet1 sheet2 : Grid ν) (sheetName : GoString) :
    CompareSpreadsheetsAndGetDiff L sheet1 sheet2 sheetName [] = .ok [] := rfl

theorem Compare_cons {ν : Type} (L : Lib ν) (sheet1 sheet2 : Grid ν) (sheetName : GoString)
    (cellConfig : PreDefinedCells) (rest : List PreDefinedCells) :
    CompareSpreadsheetsAndGetDiff L sheet1 sheet2 sheetName (cellConfig :: rest)
      = seqResults (CompareSpreadsheetsAndGetDiff L sheet1 sheet2 sheetName [cellConfig])
          (CompareSpreadsheetsAndGetDiff L sheet1 sheet2 sheetName rest) :=
  Compare_append L sheet1 sheet2 sheetName [cellConfig] rest

theorem Compare_unparsed {ν : Type} (L : Lib ν) (sheet1 sheet2 : Grid ν) (sheetName : GoString)
    (cellConfig : PreDefinedCells) (e : ParseError)
    (h : ParseCellRanges L sheetName cellConfig.CellRange cellConfig.TitleRange
      cellConfig.TimeRange = .error e) :
    CompareSpreadsheetsAndGetDiff L sheet1 sheet2 sheetName [cellConfig] = .ok [] := by
  unfold CompareSpreadsheetsAndGetDiff
  simp only [regionsLoop, h]

/-- A region list on which the loops of every parsed region return makes the
comparison return, with the records of the regions in order. -/
theorem Compare_total {ν : Type} (L : Lib ν) (sheet1 sheet2 : Grid ν) (sheetName : GoString)
    (regions : List PreDefinedCells)
    (h : ∀ cellConfig ∈ regions, ∀ cr0 cr1 cr2 : CellRange,
      parseRangeText L sheetName cellConfig.CellRange = .ok cr0 →
      parseRangeText L sheetName cellConfig.TitleRange = .ok cr1 →
      parseRangeText L sheetName cellConfig.TimeRange = .ok cr2 →
      ∃ st1, regionBody L sheet1 sheet2 sheetName [cr0, cr1, cr2] ⟨[], []⟩ = .ok st1) :
    CompareSpreadsheetsAndGetDiff L sheet1 sheet2 sheetName regions
      = .ok (regions.flatMap (regionRecords L sheet1 sheet2 sheetName)) := by
  induction regions with
  | nil => rfl
  | cons cfg rest ih =>
    rw [Compare_cons, ih (fun c hc => h c (List.mem_cons_of_mem _ hc))]
    rcases ParseCellRanges_cases L sheetName cfg with ⟨e, he, hnone⟩ | ⟨cr0, cr1, cr2, e0, e1, e2⟩
    · rw [Compare_unparsed L sheet1 sheet2 sheetName cfg e he]
      simp [seqResults, hnone sheet1 sheet2]
    · obtain ⟨st1, hst⟩ := h cfg (List.mem_cons_self _ _) cr0 cr1 cr2 e0 e1 e2
      rw [Compare_single L sheet1 sheet2 sheetName cfg cr0 cr1 cr2 e0 e1 e2, hst]
      have hrec := regionBody_ok L sheet1 sheet2 sheetName cr0 cr1 cr2 _ st1 hst
      simp only [List.nil_append] at hrec
      simp [seqResults, hrec,
        regionRecords_parsed L sheet1 sheet2 sheetName cfg cr0 cr1 cr2 e0 e1 e2]

theorem Compare_total_nonneg {ν : Type} (L : Lib ν) (sheet1 sheet2 : Grid ν)
    (sheetName : GoString) (regions : List PreDefinedCells)
    (hn : RegionsNonNeg L sheetName regions) (hm : RegionsEndBelowMax L sheetName regions) :
    CompareSpreadsheetsAndGetDiff L sheet1 sheet2 sheetName regions
      = .ok (regions.flatMap (regionRecords L sheet1 sheet2 sheetName)) := by
  apply Compare_total
  intro cfg hc cr0 cr1 cr2 e0 e1 e2
  obtain ⟨a, b, c⟩ := hn cfg hc cr0 cr1 cr2 e0 e1 e2
  exact regionBody_total L sheet1 sheet2 sheetName cr0 cr1 cr2 _ a.1 a.2.2.1
    (parseRangeText_row_range L sheetName _ cr0 e0).2.2.2 (hm cfg hc cr0 e0)
    (fun _ _ _ _ _ _ _ => ⟨b.1, b.2.2.1, c.1, c.2.2.1⟩)

theorem loopFrom_skip {σ : Type} (body : Int → σ → Except Fault σ) (n : Nat) (i : Int) (s : σ)
    (hb : ∀ j t, body j t = .ok t) (hmax : ∀ j, i ≤ j → j < i + n → j < intMax) :
    loopFrom body n i s = .ok s := by
  induction n generalizing i with
  | zero => rfl
  | succ n ih =>
    have hi : i ≠ intMax := ne_of_lt (hmax i (le_refl i) (by push_cast; omega))
    simp only [loopFrom, hb, hi, if_false]
    exact ih (i + 1) (fun j h1 h2 => hmax j (by omega) (by push_cast; omega))

theorem forLoop_empty {σ : Type} (body : Int → σ → Except Fault σ) (lo hi : Int) (s : σ)
    (h : hi < lo) : forLoop lo hi body s = .ok s := by
  unfold forLoop
  have : (hi + 1 - lo).toNat = 0 := by omega
  rw [this]
  rfl

theorem regionBody_inverted {ν : Type} (L : Lib ν) (sheet1 sheet2 : Grid ν)
    (sheetName : GoString) (cr0 cr1 cr2 : CellRange) (st : DiffState)
    (hmax : cr0.EndRow < intMax)
    (h : cr0.EndRow < cr0.StartRow ∨ cr0.EndCol < cr0.StartCol) :
    regionBody L sheet1 sheet2 sheetName [cr0, cr1, cr2] st = .ok st := by
  unfold regionBody
  rcases h with h | h
  · exact forLoop_empty _ _ _ _ h
  · unfold forLoop
    apply loopFrom_skip
    · intro row t
      exact forLoop_empty _ _ _ _ h
    · intro j h1 h2
      omega

theorem intsFrom_pairwise (n : Nat) (i : Int) : (intsFrom n i).Pairwise (fun a b => a < b) := by
  induction n generalizing i with
  | zero => simp [intsFrom]
  | succ n ih =>
    simp only [intsFrom, List.pairwise_cons]
    refine ⟨fun j hj => ?_, ih (i + 1)⟩
    have := (mem_intsFrom n (i + 1) j).mp hj
    omega

theorem recordsAt_pairwise {ν : Type} (L : Lib ν) (sheet1 sheet2 : Grid ν) (sheetName : GoString)
    (cr1 cr2 : CellRange) (row col : Int) :
    (recordsAt L sheet1 sheet2 sheetName cr1 cr2 row col).Pairwise lexLt := by
  unfold recordsAt
  split
  · simp only
    split
    · split <;> simp
    · simp
  · simp

theorem spanRecords_pairwise {ν : Type} (L : Lib ν) (sheet1 sheet2 : Grid ν)
    (sheetName : GoString) (cr0 cr1 cr2 : CellRange) :
    (spanRecords L sheet1 sheet2 sheetName cr0 cr1 cr2).Pairwise lexLt := by
  unfold spanRecords
  rw [List.pairwise_flatMap]
  constructor
  · intro row _
    rw [List.pairwise_flatMap]
    refine ⟨fun col _ => recordsAt_pairwise L sheet1 sheet2 sheetName cr1 cr2 row col, ?_⟩
    refine (intsFrom_pairwise _ _).imp ?_
    intro c1 c2 hlt x hx y hy
    obtain ⟨_, _, rx, cx, _⟩ := mem_recordsAt L sheet1 sheet2 sheetName cr1 cr2 row c1 x hx
    obtain ⟨_, _, ry, cy, _⟩ := mem_recordsAt L sheet1 sheet2 sheetName cr1 cr2 row c2 y hy
    right
    rw [rx, ry, cx, cy]
    exact ⟨rfl, hlt⟩
  · refine (intsFrom_pairwise _ _).imp ?_
    intro r1 r2 hlt x hx y hy
    obtain ⟨c1, _, hx2⟩ := List.mem_flatMap.mp hx
    obtain ⟨c2, _, hy2⟩ := List.mem_flatMap.mp hy
    obtain ⟨_, _, rx, _⟩ := mem_recordsAt L sheet1 sheet2 sheetName cr1 cr2 r1 c1 x hx2
    obtain ⟨_, _, ry, _⟩ := mem_recordsAt L sheet1 sheet2 sheetName cr1 cr2 r2 c2 y hy2
    left
    rw [rx, ry]
    exact hlt

theorem regionRecords_pairwise {ν : Type} (L : Lib ν) (sheet1 sheet2 : Grid ν)
    (sheetName : GoString) (cellConfig : PreDefinedCells) :
    (regionRecords L sheet1 sheet2 sheetName cellConfig).Pairwise lexLt := by
  rcases ParseCellRanges_cases L sheetName cellConfig with
    ⟨e, _, hnone⟩ | ⟨cr0, cr1, cr2, e0, e1, e2⟩
  · rw [hnone sheet1 sheet2]
    exact List.Pairwise.nil
  · rw [regionRecords_parsed L sheet1 sheet2 sheetName cellConfig cr0 cr1 cr2 e0 e1 e2]
    exact spanRecords_pairwise L sheet1 sheet2 sheetName cr0 cr1 cr2

theorem recordsAt_same {ν : Type} (L : Lib ν) (sheet : Grid ν) (sheetName : GoString)
    (cr1 cr2 : CellRange) (row col : Int) :
    recordsAt L sheet sheet sheetName cr1 cr2 row col = [] := by
  unfold recordsAt
  cases hb : inBounds sheet row col <;> simp

theorem regionRecords_same {ν : Type} (L : Lib ν) (sheet : Grid ν) (sheetName : GoString)
    (cellConfig : PreDefinedCells) :
    regionRecords L sheet sheet sheetName cellConfig = [] := by
  rcases ParseCellRanges_cases L sheetName cellConfig with
    ⟨e, _, hnone⟩ | ⟨cr0, cr1, cr2, e0, e1, e2⟩
  · exact hnone sheet sheet
  · rw [regionRecords_parsed L sheet sheet sheetName cellConfig cr0 cr1 cr2 e0 e1 e2]
    unfold spanRecords
    simp [recordsAt_same]


theorem parses_many_colons {ν : Type} (L : Lib ν) (sheetName : GoString)
    (cellConfig : PreDefinedCells) (h : 2 ≤ cellConfig.CellRange.count ':') :
    parses L sheetName cellConfig = false := by
  unfold parses
  rw [ParseCellRanges_eq, parseRangeText_many L sheetName _ h]

theorem regionsLoop_map_free {ν : Type} (L : Lib ν) (sheet1 sheet2 : Grid ν)
    (sheetName : GoString) (regions : List PreDefinedCells) (recs : List ChangedCell)
    (m1 m2 : List (Cell × GoString)) :
    (regionsLoop L sheet1 sheet2 sheetName regions ⟨recs, m1⟩).map DiffState.changedCells
      = (regionsLoop L sheet1 sheet2 sheetName regions ⟨recs, m2⟩).map
          DiffState.changedCells := by
  rw [regionsLoop_framed L sheet1 sheet2 sheetName regions ⟨recs, m1⟩,
    regionsLoop_framed L sheet1 sheet2 sheetName regions ⟨recs, m2⟩]
  cases regionsLoop L sheet1 sheet2 sheetName regions ⟨[], []⟩ with
  | error f => rfl
  | ok d => rfl

/-! ## Claims on region lists -/

/-- C11: regions for which `ParseCellRanges` returns an error contribute no
records and do not affect the others. The comparison over a region list equals
the comparison over the list with the unparsable regions removed; a single
unparsable region gives the empty list; and a region with value range
`A1:B2:C3` before or after another region gives exactly the result of that
other region alone. -/
theorem C11_unparsable_skipped {ν : Type} (L : Lib ν) (sheet1 sheet2 : Grid ν)
    (sheetName : GoString) :
    (∀ regions : List PreDefinedCells,
        CompareSpreadsheetsAndGetDiff L sheet1 sheet2 sheetName regions
          = CompareSpreadsheetsAndGetDiff L sheet1 sheet2 sheetName
              (regions.filter (parses L sheetName)))
    ∧ (∀ cellConfig : PreDefinedCells, parses L sheetName cellConfig = false →
        CompareSpreadsheetsAndGetDiff L sheet1 sheet2 sheetName [cellConfig] = .ok [])
    ∧ (∀ (titleRange timeRange : GoString) (valid : PreDefinedCells),
        CompareSpreadsheetsAndGetDiff L sheet1 sheet2 sheetName
            [⟨"A1:B2:C3".toList, titleRange, timeRange⟩, valid]
          = CompareSpreadsheetsAndGetDiff L sheet1 sheet2 sheetName [valid]
        ∧ CompareSpreadsheetsAndGetDiff L sheet1 sheet2 sheetName
            [valid, ⟨"A1:B2:C3".toList, titleRange, timeRange⟩]
          = CompareSpreadsheetsAndGetDiff L sheet1 sheet2 sheetName [valid]) := by
  have filt : ∀ regions : List PreDefinedCells,
      CompareSpreadsheetsAndGetDiff L sheet1 sheet2 sheetName regions
        = CompareSpreadsheetsAndGetDiff L sheet1 sheet2 sheetName
            (regions.filter (parses L sheetName)) := by
    intro regions
    unfold CompareSpreadsheetsAndGetDiff
    rw [regionsLoop_filter]
  refine ⟨filt, ?_, ?_⟩
  · intro cfg hp
    rw [filt [cfg]]
    simp only [List.filter_cons, hp, Bool.false_eq_true, if_false, List.filter_nil]
    rfl
  · intro titleRange timeRange valid
    have hbad : parses L sheetName ⟨"A1:B2:C3".toList, titleRange, timeRange⟩ = false :=
      parses_many_colons L sheetName _
        (show 2 ≤ List.count ':' "A1:B2:C3".toList by decide)
    constructor
    · rw [filt [_, valid], filt [valid]]
      simp only [List.filter_cons, hbad, Bool.false_eq_true, if_false]
    · rw [filt [valid, _], filt [valid]]
      simp only [List.filter_cons, hbad, Bool.false_eq_true, if_false]

/-- C11 at the region with the texts `A1:B2:C3`, `B1`, `C1`. -/
theorem C11_unparsable_skipped_witness :
    parses asciiLib "s".toList ⟨"A1:B2:C3".toList, "B1".toList, "C1".toList⟩ = false
    ∧ CompareSpreadsheetsAndGetDiff asciiLib [[Value.str "x".toList]] [] "s".toList
        [⟨"A1:B2:C3".toList, "B1".toList, "C1".toList⟩] = .ok [] :=
  ⟨by decide,
    (C11_unparsable_skipped asciiLib [[Value.str "x".toList]] [] "s".toList).2.1
      ⟨"A1:B2:C3".toList, "B1".toList, "C1".toList⟩ (by decide)⟩

/-- C19: the result on a concatenated region list is the result on the first
part followed by the result on the second part, and the fault of the first
part that has one; in particular two returned lists are concatenated. The
lookup map `sheet1Map` does not influence the records: the loop over the
regions gives the same records from any two initial contents of the map. A
region listed twice has its records twice: nothing is de-duplicated. -/
theorem C19_concatenation {ν : Type} (L : Lib ν) (sheet1 sheet2 : Grid ν)
    (sheetName : GoString) :
    (∀ l1 l2 : List PreDefinedCells,
        CompareSpreadsheetsAndGetDiff L sheet1 sheet2 sheetName (l1 ++ l2)
          = seqResults (CompareSpreadsheetsAndGetDiff L sheet1 sheet2 sheetName l1)
              (CompareSpreadsheetsAndGetDiff L sheet1 sheet2 sheetName l2))
    ∧ (∀ (l1 l2 : List PreDefinedCells) (r1 r2 : List ChangedCell),
        CompareSpreadsheetsAndGetDiff L sheet1 sheet2 sheetName l1 = .ok r1 →
        CompareSpreadsheetsAndGetDiff L sheet1 sheet2 sheetName l2 = .ok r2 →
        CompareSpreadsheetsAndGetDiff L sheet1 sheet2 sheetName (l1 ++ l2) = .ok (r1 ++ r2))
    ∧ (∀ (regions : List PreDefinedCells) (recs : List ChangedCell)
        (m1 m2 : List (Cell × GoString)),
        (regionsLoop L sheet1 sheet2 sheetName regions ⟨recs, m1⟩).map DiffState.changedCells
          = (regionsLoop L sheet1 sheet2 sheetName regions ⟨recs, m2⟩).map
              DiffState.changedCells)
    ∧ (∀ (cellConfig : PreDefinedCells) (r : List ChangedCell),
        CompareSpreadsheetsAndGetDiff L sheet1 sheet2 sheetName [cellConfig] = .ok r →
        CompareSpreadsheetsAndGetDiff L sheet1 sheet2 sheetName [cellConfig, cellConfig]
          = .ok (r ++ r)) := by
  refine ⟨Compare_append L sheet1 sheet2 sheetName, ?_,
    regionsLoop_map_free L sheet1 sheet2 sheetName, ?_⟩
  · intro l1 l2 r1 r2 h1 h2
    rw [Compare_append, h1, h2]
    rfl
  · intro cfg r h
    rw [Compare_cons, h]
    rfl

/-- C19 at two overlapping regions `A1:A2` and `A2`, on the current grid
`[["x"], ["y"]]` and the previous grid `[["x"]]`: the coordinate `(1, 0)` is
reported once per region. -/
theorem C19_concatenation_witness :
    CompareSpreadsheetsAndGetDiff asciiLib [[Value.str "x".toList], [Value.str "y".toList]]
        [[Value.str "x".toList]] "s".toList
        ([⟨"A1:A2".toList, "A1".toList, "A1".toList⟩]
          ++ [⟨"A2".toList, "A1".toList, "A1".toList⟩])
      = .ok ([⟨"s".toList, ⟨1, 0, "y".toList, "x".toList, "x".toList⟩, []⟩]
          ++ [⟨"s".toList, ⟨1, 0, "y".toList, "x".toList, "x".toList⟩, []⟩]) :=
  (C19_concatenation asciiLib [[Value.str "x".toList], [Value.str "y".toList]]
      [[Value.str "x".toList]] "s".toList).2.1
    [⟨"A1:A2".toList, "A1".toList, "A1".toList⟩] [⟨"A2".toList, "A1".toList, "A1".toList⟩]
    _ _ (by decide) (by decide)


theorem regionsNonNeg_one {ν : Type} (L : Lib ν) (sheetName : GoString)
    (cellConfig : PreDefinedCells) (cr0 cr1 cr2 : CellRange)
    (h0 : parseRangeText L sheetName cellConfig.CellRange = .ok cr0)
    (h1 : parseRangeText L sheetName cellConfig.TitleRange = .ok cr1)
    (h2 : parseRangeText L sheetName cellConfig.TimeRange = .ok cr2)
    (hn : cr0.NonNeg ∧ cr1.NonNeg ∧ cr2.NonNeg) :
    RegionsNonNeg L sheetName [cellConfig] := by
  intro cfg hmem a b c e0 e1 e2
  have hc : cfg = cellConfig := List.mem_singleton.mp hmem
  subst hc
  rw [h0] at e0
  rw [h1] at e1
  rw [h2] at e2
  rw [← Except.ok.inj e0, ← Except.ok.inj e1, ← Except.ok.inj e2]
  exact hn

theorem regionsEndBelowMax_one {ν : Type} (L : Lib ν) (sheetName : GoString)
    (cellConfig : PreDefinedCells) (cr0 : CellRange)
    (h0 : parseRangeText L sheetName cellConfig.CellRange = .ok cr0)
    (hm : cr0.EndCol < intMax) :
    RegionsEndBelowMax L sheetName [cellConfig] := by
  intro cfg hmem a e0
  have hc : cfg = cellConfig := List.mem_singleton.mp hmem
  subst hc
  rw [h0] at e0
  rw [← Except.ok.inj e0]
  exact hm

theorem seqResults_nil_left (b : Except Fault (List ChangedCell)) :
    seqResults (.ok []) b = b := by
  cases b <;> rfl

theorem parseCellRef_cons_A {ν : Type} (L : Lib ν) (sheetName t : GoString) :
    parseCellRef L sheetName ('A' :: t) = parseCellRef L sheetName t := by
  have hA : isDigit L 'A' = false := by simp [isDigit, isAsciiDigit]
  have hU : toUpperRune L 'A' = 'A' := by simp [toUpperRune]
  have h0 : wrapInt (0 * 26 + ((('A' : Char).toNat : Int) - 65)) = 0 := by decide
  unfold parseCellRef
  simp only [splitAtFirstDigit, hA, Bool.false_eq_true, if_false]
  cases splitAtFirstDigit L t with
  | none => rfl
  | some ps =>
    obtain ⟨pre, suf⟩ := ps
    simp only [parseCol, ToUpper, List.map_cons, List.foldl_cons, hU, h0]

/-! ## Further claims on the reference parser -/

/-- C15 on the code: `parseCellRef` returns coordinates below zero without an
error. The reference `A0` gives row `-1`; the reference `EZZZZZZZZZZZZZ1`, made
of letters and a positive row number, gives a negative column, and
`DSQYOMTLWMKGII1` gives the smallest `int` as column. -/
theorem C15_negative_coordinates {ν : Type} (L : Lib ν) (sheetName : GoString) :
    parseCellRef L sheetName "A0".toList = .ok (-1, 0)
    ∧ parseCellRef L sheetName "EZZZZZZZZZZZZZ1".toList = .ok (0, -6040979707690868737)
    ∧ parseCellRef L sheetName "DSQYOMTLWMKGII1".toList = .ok (0, intMin) := by
  refine ⟨?_, ?_, ?_⟩
  · have h := parseCellRef_letters_digits L sheetName "A".toList "0".toList
      (by decide) (by decide) (by decide) (by decide)
    rw [show "A0".toList = "A".toList ++ "0".toList from rfl, h]
    decide
  · have h := parseCellRef_letters_digits L sheetName "EZZZZZZZZZZZZZ".toList "1".toList
      (by decide) (by decide) (by decide) (by decide)
    rw [show "EZZZZZZZZZZZZZ1".toList = "EZZZZZZZZZZZZZ".toList ++ "1".toList from rfl, h]
    decide
  · have h := parseCellRef_letters_digits L sheetName "DSQYOMTLWMKGII".toList "1".toList
      (by decide) (by decide) (by decide) (by decide)
    rw [show "DSQYOMTLWMKGII1".toList = "DSQYOMTLWMKGII".toList ++ "1".toList from rfl, h]
    decide

/-- C17: a leading `A` carries no weight: for every text `t`, `parseCellRef`
returns on `A` followed by `t` what it returns on `t`, with the same row, the
same column and the same success or failure. So `AA1` and `A1`, two different
texts, both give `(0, 0)`, and the column mapping is not injective. -/
theorem C17_leading_A {ν : Type} (L : Lib ν) (sheetName : GoString) :
    (∀ t : GoString, parseCellRef L sheetName ('A' :: t) = parseCellRef L sheetName t)
    ∧ parseCellRef L sheetName "AA1".toList = parseCellRef L sheetName "A1".toList
    ∧ parseCellRef L sheetName "A1".toList = .ok (0, 0)
    ∧ "AA1".toList ≠ "A1".toList
    ∧ parseCol (ToUpper L "AA".toList) = parseCol (ToUpper L "A".toList) := by
  refine ⟨parseCellRef_cons_A L sheetName, parseCellRef_cons_A L sheetName "A1".toList,
    (parseCellRef_A1_B2 L sheetName).1, by decide, ?_⟩
  rw [parseCol_letters L "AA".toList (by decide), parseCol_letters L "A".toList (by decide)]
  decide


/-! ### A loop that runs forever -/

theorem iterate_skip {σ : Type} (body : Int → σ → Except Fault σ) (n : Nat) (i : Int) (s : σ)
    (hb : ∀ j t, body j t = .ok t) : iterate body n i s = .ok s := by
  induction n generalizing i with
  | zero => rfl
  | succ n ih => simp only [iterate, hb, ih]

theorem loopFrom_forever {σ : Type} (body : Int → σ → Except Fault σ) (n : Nat) (i : Int)
    (s : σ) (hb : ∀ j t, body j t = .ok t) (hn : 0 < n) (hi : i + n = intMax + 1) :
    loopFrom body n i s = .error .counterWrap := by
  induction n generalizing i with
  | zero => omega
  | succ n ih =>
    simp only [loopFrom, hb]
    by_cases h : i = intMax
    · simp only [h, if_true, iterate_skip body _ _ _ hb]
    · simp only [h, if_false]
      have hn2 : 0 < n := by push_cast at hi; omega
      exact ih (i + 1) hn2 (by push_cast at hi ⊢; omega)

theorem forLoop_forever {σ : Type} (body : Int → σ → Except Fault σ) (lo : Int) (s : σ)
    (hb : ∀ j t, body j t = .ok t) (hlo : lo ≤ intMax) :
    forLoop lo intMax body s = .error .counterWrap := by
  unfold forLoop
  apply loopFrom_forever body _ lo s hb
  · omega
  · omega

theorem cellBody_row_beyond {ν : Type} (L : Lib ν) (sheet1 sheet2 : Grid ν)
    (sheetName : GoString) (cr1 cr2 : CellRange) (row col : Int) (st : DiffState)
    (h : len sheet1 ≤ row) :
    cellBody L sheet1 sheet2 sheetName cr1 cr2 row col st = .ok st := by
  have h1 : ¬ row < len sheet1 := not_lt.mpr h
  unfold cellBody cellGuard
  simp only [h1, if_false]

/-- A value span that starts at a row the current grid does not have and ends
at the largest `int` as column: no cell is in bounds, no index is evaluated,
and the column loop of the first row runs forever. -/
theorem regionBody_forever {ν : Type} (L : Lib ν) (sheet1 sheet2 : Grid ν)
    (sheetName : GoString) (cr0 cr1 cr2 : CellRange) (st : DiffState)
    (hrow : len sheet1 ≤ cr0.StartRow) (hr : cr0.StartRow ≤ cr0.EndRow)
    (hc : cr0.StartCol ≤ intMax) (he : cr0.EndCol = intMax) :
    regionBody L sheet1 sheet2 sheetName [cr0, cr1, cr2] st = .error .counterWrap := by
  unfold regionBody
  apply forLoop_first_fault _ _ _ _ _ hr
  rw [he]
  exact forLoop_forever _ _ _
    (fun col t => cellBody_row_beyond L sheet1 sheet2 sheetName cr1 cr2 _ col t hrow) hc

/-- On a current grid that has the row, the same span ends in an index out of
range: after the column wraps to the smallest `int` the guard
`col < len(sheet1[row])` holds and `sheet1[row][col]` is evaluated. -/
theorem wrapped_column_index_fault :
    CompareSpreadsheetsAndGetDiff asciiLib [[Value.str "x".toList]] [[Value.str "y".toList]]
        "s".toList [⟨"DSQYOMTLWMKGIH1".toList, "B1".toList, "C1".toList⟩]
      = .error .indexOutOfRange := by
  decide

/-! ## Further claims on the comparison -/

/-- C12, as stated, fails: the region with value range `DSQYOMTLWMKGIH1`
parses to row 0 and the largest `int` as column, all coordinates are
non-negative, and on the empty grid compared with itself the column loop cannot
end, so no empty result is returned. -/
theorem C12_counterexample :
    RegionsNonNeg asciiLib "s".toList
        [⟨"DSQYOMTLWMKGIH1".toList, "A1".toList, "A1".toList⟩]
    ∧ CompareSpreadsheetsAndGetDiff asciiLib ([] : Grid Nat) [] "s".toList
        [⟨"DSQYOMTLWMKGIH1".toList, "A1".toList, "A1".toList⟩] = .error .counterWrap
    ∧ CompareSpreadsheetsAndGetDiff asciiLib ([] : Grid Nat) [] "s".toList
        [⟨"DSQYOMTLWMKGIH1".toList, "A1".toList, "A1".toList⟩] ≠ .ok [] := by
  have h : CompareSpreadsheetsAndGetDiff asciiLib ([] : Grid Nat) [] "s".toList
      [⟨"DSQYOMTLWMKGIH1".toList, "A1".toList, "A1".toList⟩] = .error .counterWrap :=
    Compare_first_fault asciiLib [] [] "s".toList _ [] ⟨0, 0, intMax, intMax⟩ ⟨0, 0, 0, 0⟩
      ⟨0, 0, 0, 0⟩ _ (by decide) (by decide) (by decide)
      (regionBody_forever asciiLib [] [] "s".toList _ _ _ _ (by decide) (by decide)
        (by decide) rfl)
  refine ⟨?_, h, ?_⟩
  · exact regionsNonNeg_one asciiLib "s".toList _ ⟨0, 0, intMax, intMax⟩ ⟨0, 0, 0, 0⟩
      ⟨0, 0, 0, 0⟩ (by decide) (by decide) (by decide)
      ⟨by unfold CellRange.NonNeg; decide, by unfold CellRange.NonNeg; decide,
        by unfold CellRange.NonNeg; decide⟩
  · rw [h]
    exact fun c => Except.noConfusion c

/-- C12, amended: for every grid `G`, every sheet name and every region list
whose parsed spans have non-negative coordinates and whose value spans end at
a column below the largest `int`, the comparison of `G` with itself returns
the empty list. -/
theorem C12_idempotence {ν : Type} (L : Lib ν) (G : Grid ν) (sheetName : GoString)
    (regions : List PreDefinedCells)
    (hn : RegionsNonNeg L sheetName regions) (hm : RegionsEndBelowMax L sheetName regions) :
    CompareSpreadsheetsAndGetDiff L G G sheetName regions = .ok [] := by
  rw [Compare_total_nonneg L G G sheetName regions hn hm]
  have : regions.flatMap (regionRecords L G G sheetName) = [] :=
    List.flatMap_eq_nil_iff.mpr (fun cfg _ => regionRecords_same L G sheetName cfg)
  rw [this]

/-- C12 at the region `A1:B2` with title `C1` and time `D1`, on a ragged grid. -/
theorem C12_idempotence_witness :
    CompareSpreadsheetsAndGetDiff asciiLib
        [[Value.str "x".toList, Value.other 5], [Value.bool true]]
        [[Value.str "x".toList, Value.other 5], [Value.bool true]] "s".toList
        [⟨"A1:B2".toList, "C1".toList, "D1".toList⟩] = .ok [] :=
  C12_idempotence asciiLib [[Value.str "x".toList, Value.other 5], [Value.bool true]]
    "s".toList [⟨"A1:B2".toList, "C1".toList, "D1".toList⟩]
    (regionsNonNeg_one asciiLib "s".toList _ ⟨0, 1, 0, 1⟩ ⟨0, 0, 2, 2⟩ ⟨0, 0, 3, 3⟩
      (by decide) (by decide) (by decide)
      ⟨by unfold CellRange.NonNeg; decide, by unfold CellRange.NonNeg; decide,
        by unfold CellRange.NonNeg; decide⟩)
    (regionsEndBelowMax_one asciiLib "s".toList _ ⟨0, 1, 0, 1⟩ (by decide) (by decide))

/-- C16, as stated, fails: with the value range `DSQYOMTLWMKGIH1`, whose
parsed coordinates are all non-negative, on an empty current grid no cell is
in bounds and no index is evaluated, but the column loop, bounded by the
largest `int`, runs forever: the comparison does not return, so the engine is
not total there. -/
theorem C16_counterexample :
    RegionsNonNeg asciiLib "s".toList
        [⟨"DSQYOMTLWMKGIH1".toList, "B1".toList, "C1".toList⟩]
    ∧ CompareSpreadsheetsAndGetDiff asciiLib ([] : Grid Nat) [[Value.str "y".toList]]
        "s".toList [⟨"DSQYOMTLWMKGIH1".toList, "B1".toList, "C1".toList⟩]
      = .error .counterWrap
    ∧ ¬ ∃ recs, CompareSpreadsheetsAndGetDiff asciiLib ([] : Grid Nat)
        [[Value.str "y".toList]] "s".toList
        [⟨"DSQYOMTLWMKGIH1".toList, "B1".toList, "C1".toList⟩] = .ok recs := by
  have h : CompareSpreadsheetsAndGetDiff asciiLib ([] : Grid Nat) [[Value.str "y".toList]]
      "s".toList [⟨"DSQYOMTLWMKGIH1".toList, "B1".toList, "C1".toList⟩]
      = .error .counterWrap :=
    Compare_first_fault asciiLib [] [[Value.str "y".toList]] "s".toList _ []
      ⟨0, 0, intMax, intMax⟩ ⟨0, 0, 1, 1⟩ ⟨0, 0, 2, 2⟩ _ (by decide) (by decide) (by decide)
      (regionBody_forever asciiLib [] [[Value.str "y".toList]] "s".toList _ _ _ _
        (by decide) (by decide) (by decide) rfl)
  refine ⟨?_, h, ?_⟩
  · exact regionsNonNeg_one asciiLib "s".toList _ ⟨0, 0, intMax, intMax⟩ ⟨0, 0, 1, 1⟩
      ⟨0, 0, 2, 2⟩ (by decide) (by decide) (by decide)
      ⟨by unfold CellRange.NonNeg; decide, by unfold CellRange.NonNeg; decide,
        by unfold CellRange.NonNeg; decide⟩
  · rintro ⟨recs, hr⟩
    rw [h] at hr
    cases hr

/-- C16, amended: when the parsed spans of every region have non-negative
coordinates and every value span ends at a column below the largest `int`,
the comparison returns for all grids, empty and ragged ones included, with the
records of the regions in order. At non-negative coordinates the guard is the
bounds check, a guarded access has a valid index, and the text looked up for
a title or time coordinate out of bounds is the empty string, not a fault. -/
theorem C16_total {ν : Type} (L : Lib ν) (sheet1 sheet2 : Grid ν) (sheetName : GoString)
    (regions : List PreDefinedCells)
    (hn : RegionsNonNeg L sheetName regions) (hm : RegionsEndBelowMax L sheetName regions) :
    CompareSpreadsheetsAndGetDiff L sheet1 sheet2 sheetName regions
        = .ok (regions.flatMap (regionRecords L sheet1 sheet2 sheetName))
    ∧ (∀ (sheet : Grid ν) (row col : Int), 0 ≤ row → 0 ≤ col →
        cellGuard sheet row col = .ok (inBounds sheet row col)
        ∧ (inBounds sheet row col = true → ∃ v, cellAt sheet row col = .ok v)
        ∧ guardedText L sheet row col = .ok (textAt L sheet row col)
        ∧ (inBounds sheet row col = false → guardedText L sheet row col = .ok [])) := by
  refine ⟨Compare_total_nonneg L sheet1 sheet2 sheetName regions hn hm, ?_⟩
  intro sheet row col h0 h1
  refine ⟨cellGuard_eq_inBounds sheet row col h0 h1, ?_, guardedText_nonneg L sheet row col h0 h1,
    ?_⟩
  · intro hb
    obtain ⟨v, hv, _⟩ := cellAt_inBounds L sheet row col hb
    exact ⟨v, hv⟩
  · intro hb
    rw [guardedText_nonneg L sheet row col h0 h1, textAt_out L sheet row col hb]

/-- C16 at the region `A1:B2` with title `C1` and time `D9`, on an empty
current grid. -/
theorem C16_total_witness :
    CompareSpreadsheetsAndGetDiff asciiLib ([] : Grid Nat) [[Value.str "y".toList]] "s".toList
        [⟨"A1:B2".toList, "C1".toList, "D9".toList⟩] = .ok [] :=
  (C16_total asciiLib ([] : Grid Nat) [[Value.str "y".toList]] "s".toList
    [⟨"A1:B2".toList, "C1".toList, "D9".toList⟩]
    (regionsNonNeg_one asciiLib "s".toList _ ⟨0, 1, 0, 1⟩ ⟨0, 0, 2, 2⟩ ⟨8, 8, 3, 3⟩
      (by decide) (by decide) (by decide)
      ⟨by unfold CellRange.NonNeg; decide, by unfold CellRange.NonNeg; decide,
        by unfold CellRange.NonNeg; decide⟩)
    (regionsEndBelowMax_one asciiLib "s".toList _ ⟨0, 1, 0, 1⟩ (by decide) (by decide))).1

/-- C18: a region whose parsed value span is inverted (`StartRow > EndRow` or
`StartCol > EndCol`) is tolerated: for all grids the comparison of the region
alone returns the empty list, and inside a list the region changes nothing of
the result. The value range `B2:A1` parses to such a span. -/
theorem C18_inverted_span {ν : Type} (L : Lib ν) (sheet1 sheet2 : Grid ν)
    (sheetName : GoString) :
    (∀ (cellConfig : PreDefinedCells) (cr0 cr1 cr2 : CellRange),
        parseRangeText L sheetName cellConfig.CellRange = .ok cr0 →
        parseRangeText L sheetName cellConfig.TitleRange = .ok cr1 →
        parseRangeText L sheetName cellConfig.TimeRange = .ok cr2 →
        (cr0.EndRow < cr0.StartRow ∨ cr0.EndCol < cr0.StartCol) →
        CompareSpreadsheetsAndGetDiff L sheet1 sheet2 sheetName [cellConfig] = .ok []
        ∧ ∀ before after : List PreDefinedCells,
            CompareSpreadsheetsAndGetDiff L sheet1 sheet2 sheetName
                (before ++ cellConfig :: after)
              = CompareSpreadsheetsAndGetDiff L sheet1 sheet2 sheetName (before ++ after))
    ∧ parseRangeText L sheetName "B2:A1".toList = .ok ⟨1, 0, 1, 0⟩
    ∧ CompareSpreadsheetsAndGetDiff L sheet1 sheet2 sheetName
        [⟨"B2:A1".toList, "A1".toList, "A1".toList⟩] = .ok [] := by
  have main : ∀ (cellConfig : PreDefinedCells) (cr0 cr1 cr2 : CellRange),
      parseRangeText L sheetName cellConfig.CellRange = .ok cr0 →
      parseRangeText L sheetName cellConfig.TitleRange = .ok cr1 →
      parseRangeText L sheetName cellConfig.TimeRange = .ok cr2 →
      (cr0.EndRow < cr0.StartRow ∨ cr0.EndCol < cr0.StartCol) →
      CompareSpreadsheetsAndGetDiff L sheet1 sheet2 sheetName [cellConfig] = .ok [] := by
    intro cfg cr0 cr1 cr2 e0 e1 e2 hinv
    rw [Compare_single L sheet1 sheet2 sheetName cfg cr0 cr1 cr2 e0 e1 e2,
      regionBody_inverted L sheet1 sheet2 sheetName cr0 cr1 cr2 _
        (parseRangeText_row_range L sheetName _ cr0 e0).2.2.2 hinv]
  have hB2A1 : parseRangeText L sheetName "B2:A1".toList = .ok ⟨1, 0, 1, 0⟩ := by
    have hs : Split ':' "B2:A1".toList = ["B2".toList, "A1".toList] :=
      Split_one_sep ':' "B2".toList "A1".toList (by decide) (by decide)
    unfold parseRangeText
    rw [hs]
    simp only [(parseCellRef_A1_B2 L sheetName).1, (parseCellRef_A1_B2 L sheetName).2]
  refine ⟨?_, hB2A1, ?_⟩
  · intro cfg cr0 cr1 cr2 e0 e1 e2 hinv
    have h1 := main cfg cr0 cr1 cr2 e0 e1 e2 hinv
    refine ⟨h1, ?_⟩
    intro before after
    rw [Compare_append, Compare_cons, h1, seqResults_nil_left, ← Compare_append]
  · exact main _ ⟨1, 0, 1, 0⟩ ⟨0, 0, 0, 0⟩ ⟨0, 0, 0, 0⟩ hB2A1 (parseRangeText_A1 L sheetName)
      (parseRangeText_A1 L sheetName) (Or.inl (by decide))

/-- C18 at the region `A1:B1` written backwards as `B1:A1`, whose columns are
inverted, on grids that differ at both cells. -/
theorem C18_inverted_span_witness :
    CompareSpreadsheetsAndGetDiff asciiLib
        [[Value.str "x".toList, Value.str "y".toList]]
        [[Value.str "p".toList, Value.str "q".toList]] "s".toList
        [⟨"B1:A1".toList, "A1".toList, "A1".toList⟩] = .ok [] :=
  ((C18_inverted_span asciiLib [[Value.str "x".toList, Value.str "y".toList]]
      [[Value.str "p".toList, Value.str "q".toList]] "s".toList).1
    ⟨"B1:A1".toList, "A1".toList, "A1".toList⟩ ⟨0, 0, 1, 0⟩ ⟨0, 0, 0, 0⟩ ⟨0, 0, 0, 0⟩
    (by decide) (by decide) (by decide) (Or.inr (by decide))).1


theorem seqResults_ok (a b : Except Fault (List ChangedCell)) (recs : List ChangedCell)
    (h : seqResults a b = .ok recs) : ∃ r1 r2, a = .ok r1 ∧ b = .ok r2 ∧ recs = r1 ++ r2 := by
  cases a with
  | error f => cases h
  | ok r1 =>
    cases b with
    | error f => cases h
    | ok r2 => exact ⟨r1, r2, rfl, rfl, (Except.ok.inj h).symm⟩

theorem lexLt_ne (a b : ChangedCell) (h : lexLt a b) :
    ¬ (a.Cell.Row = b.Cell.Row ∧ a.Cell.Col = b.Cell.Col) := by
  unfold lexLt at h
  omega

/-- C13: the records come in region order, then in row-major order inside a
region. The records returned for a list `l1 ++ l2` are those returned for `l1`
followed by those returned for `l2`; the records returned for one region are
strictly increasing in the lexicographic order of `(Row, Col)`, so no two of
them have the same coordinate; and a returned list is the concatenation, in
the order of the regions, of the strictly increasing record lists of the
regions. -/
theorem C13_record_order {ν : Type} (L : Lib ν) (sheet1 sheet2 : Grid ν)
    (sheetName : GoString) :
    (∀ (l1 l2 : List PreDefinedCells) (recs : List ChangedCell),
        CompareSpreadsheetsAndGetDiff L sheet1 sheet2 sheetName (l1 ++ l2) = .ok recs →
        ∃ r1 r2, CompareSpreadsheetsAndGetDiff L sheet1 sheet2 sheetName l1 = .ok r1
          ∧ CompareSpreadsheetsAndGetDiff L sheet1 sheet2 sheetName l2 = .ok r2
          ∧ recs = r1 ++ r2)
    ∧ (∀ (cellConfig : PreDefinedCells) (recs : List ChangedCell),
        CompareSpreadsheetsAndGetDiff L sheet1 sheet2 sheetName [cellConfig] = .ok recs →
        recs.Pairwise lexLt
        ∧ recs.Pairwise (fun a b => ¬ (a.Cell.Row = b.Cell.Row ∧ a.Cell.Col = b.Cell.Col)))
    ∧ (∀ (regions : List PreDefinedCells) (recs : List ChangedCell),
        CompareSpreadsheetsAndGetDiff L sheet1 sheet2 sheetName regions = .ok recs →
        recs = regions.flatMap (regionRecords L sheet1 sheet2 sheetName)
        ∧ ∀ cellConfig ∈ regions,
            (regionRecords L sheet1 sheet2 sheetName cellConfig).Pairwise lexLt
            ∧ CompareSpreadsheetsAndGetDiff L sheet1 sheet2 sheetName [cellConfig]
                = .ok (regionRecords L sheet1 sheet2 sheetName cellConfig)) := by
  refine ⟨?_, ?_, ?_⟩
  · intro l1 l2 recs h
    rw [Compare_append] at h
    exact seqResults_ok _ _ recs h
  · intro cfg recs h
    have e := Compare_ok L sheet1 sheet2 sheetName [cfg] recs h
    simp only [List.flatMap_cons, List.flatMap_nil, List.append_nil] at e
    have hp : recs.Pairwise lexLt := by
      rw [e]
      exact regionRecords_pairwise L sheet1 sheet2 sheetName cfg
    exact ⟨hp, hp.imp (fun {a b} hab => lexLt_ne a b hab)⟩
  · intro regions recs h
    refine ⟨Compare_ok L sheet1 sheet2 sheetName regions recs h, ?_⟩
    intro cfg hmem
    refine ⟨regionRecords_pairwise L sheet1 sheet2 sheetName cfg, ?_⟩
    obtain ⟨before, after, hsplit⟩ := List.append_of_mem hmem
    rw [hsplit, Compare_append, Compare_cons] at h
    obtain ⟨_, r2, _, h2, _⟩ := seqResults_ok _ _ recs h
    obtain ⟨r3, _, h3, _, _⟩ := seqResults_ok _ _ r2 h2
    have e := Compare_ok L sheet1 sheet2 sheetName [cfg] r3 h3
    simp only [List.flatMap_cons, List.flatMap_nil, List.append_nil] at e
    rw [h3, e]

/-- C13 at the region `A1:B2` on a current grid of four cells and an empty
previous grid: the four records come in the order `(0,0)`, `(0,1)`, `(1,0)`,
`(1,1)`. -/
theorem C13_record_order_witness :
    CompareSpreadsheetsAndGetDiff asciiLib
        [[Value.str "a".toList, Value.str "b".toList],
          [Value.str "c".toList, Value.str "d".toList]] [] "s".toList
        [⟨"A1:B2".toList, "A1".toList, "B1".toList⟩]
      = .ok [⟨"s".toList, ⟨0, 0, "a".toList, "b".toList, "a".toList⟩, []⟩,
          ⟨"s".toList, ⟨0, 1, "b".toList, "b".toList, "a".toList⟩, []⟩,
          ⟨"s".toList, ⟨1, 0, "c".toList, "b".toList, "a".toList⟩, []⟩,
          ⟨"s".toList, ⟨1, 1, "d".toList, "b".toList, "a".toList⟩, []⟩]
    ∧ List.Pairwise lexLt
        [⟨"s".toList, ⟨0, 0, "a".toList, "b".toList, "a".toList⟩, []⟩,
          ⟨"s".toList, ⟨0, 1, "b".toList, "b".toList, "a".toList⟩, []⟩,
          ⟨"s".toList, ⟨1, 0, "c".toList, "b".toList, "a".toList⟩, []⟩,
          ⟨"s".toList, ⟨1, 1, "d".toList, "b".toList, "a".toList⟩, []⟩] :=
  ⟨by decide,
    ((C13_record_order asciiLib
        [[Value.str "a".toList, Value.str "b".toList],
          [Value.str "c".toList, Value.str "d".toList]] [] "s".toList).2.1
      ⟨"A1:B2".toList, "A1".toList, "B1".toList⟩ _ (by decide)).1⟩


theorem isSpace_printable {ν : Type} (L : Lib ν) (c : Char) (h1 : 33 ≤ c.toNat)
    (h2 : c.toNat ≤ 126) : isSpace L c = false := by
  unfold isSpace
  have h : c.toNat ≤ 255 := by omega
  simp only [h, if_true, decide_eq_false_iff_not]
  omega

theorem TrimSpace_printable {ν : Type} (L : Lib ν) (s : GoString)
    (h : ∀ c ∈ s, 33 ≤ c.toNat ∧ c.toNat ≤ 126) : TrimSpace L s = s := by
  have drop : ∀ t : GoString, (∀ c ∈ t, 33 ≤ c.toNat ∧ c.toNat ≤ 126) →
      t.dropWhile (isSpace L) = t := by
    intro t ht
    cases t with
    | nil => rfl
    | cons x xs =>
      have hx := ht x (List.mem_cons_self _ _)
      simp [List.dropWhile, isSpace_printable L x hx.1 hx.2]
  unfold TrimSpace
  rw [drop s h, drop s.reverse (fun c hc => h c (List.mem_reverse.mp hc)), List.reverse_reverse]

theorem parseRangeText_ref {ν : Type} (L : Lib ν) (sheetName p d : GoString)
    (hp : ∀ c ∈ p, isAsciiLetter c = true) (hd0 : d ≠ [])
    (hd : ∀ c ∈ d, isAsciiDigit c = true) (hn : decimalValue d ≤ intMax)
    (hc : ':' ∉ p ++ d) :
    parseRangeText L sheetName (p ++ d)
      = .ok ⟨decimalValue d - 1, decimalValue d - 1, wrapInt (hornerValue p),
          wrapInt (hornerValue p)⟩ :=
  parseRangeText_single L sheetName _ _ _ hc
    (parseCellRef_letters_digits L sheetName p d hp hd0 hd hn)

/-- C14: the end-to-end scenario. For the region with value range `A1:A2`,
title range `B1` and time range `C1`, the current grid
`[["x", "title1", "t1"], ["y"]]` and the previous grid `[["x"]]`, the
comparison returns exactly one record: none for `(0, 0)`, where `x` equals `x`,
and for `(1, 0)` the record with value `y`, empty old value, title `title1`
and time `t1`. -/
theorem C14_end_to_end {ν : Type} (L : Lib ν) (sheetName : GoString) :
    CompareSpreadsheetsAndGetDiff L
        ([[Value.str "x".toList, Value.str "title1".toList, Value.str "t1".toList],
          [Value.str "y".toList]] : Grid ν)
        [[Value.str "x".toList]] sheetName
        [⟨"A1:A2".toList, "B1".toList, "C1".toList⟩]
      = .ok [⟨sheetName, ⟨1, 0, "y".toList, "t1".toList, "title1".toList⟩, []⟩] := by
  have hx := TrimSpace_printable L "x".toList (by decide)
  have hy := TrimSpace_printable L "y".toList (by decide)
  have ht := TrimSpace_printable L "t1".toList (by decide)
  have hT := TrimSpace_printable L "title1".toList (by decide)
  have hA2 : parseCellRef L sheetName "A2".toList = .ok (1, 0) := by
    have h := parseCellRef_letters_digits L sheetName "A".toList "2".toList
      (by decide) (by decide) (by decide) (by decide)
    rw [show "A2".toList = "A".toList ++ "2".toList from rfl, h]
    decide
  have h0 : parseRangeText L sheetName "A1:A2".toList = .ok ⟨0, 1, 0, 0⟩ := by
    have hs : Split ':' "A1:A2".toList = ["A1".toList, "A2".toList] :=
      Split_one_sep ':' "A1".toList "A2".toList (by decide) (by decide)
    unfold parseRangeText
    rw [hs]
    simp only [(parseCellRef_A1_B2 L sheetName).1, hA2]
  have h1 : parseRangeText L sheetName "B1".toList = .ok ⟨0, 0, 1, 1⟩ := by
    have h := parseRangeText_ref L sheetName "B".toList "1".toList
      (by decide) (by decide) (by decide) (by decide) (by decide)
    rw [show "B1".toList = "B".toList ++ "1".toList from rfl, h]
    decide
  have h2 : parseRangeText L sheetName "C1".toList = .ok ⟨0, 0, 2, 2⟩ := by
    have h := parseRangeText_ref L sheetName "C".toList "1".toList
      (by decide) (by decide) (by decide) (by decide) (by decide)
    rw [show "C1".toList = "C".toList ++ "1".toList from rfl, h]
    decide
  rw [Compare_single_total L _ _ sheetName ⟨"A1:A2".toList, "B1".toList, "C1".toList⟩
    ⟨0, 1, 0, 0⟩ ⟨0, 0, 1, 1⟩ ⟨0, 0, 2, 2⟩ h0 h1 h2 (by decide) (by decide) (by decide)
    (by decide) (fun _ _ _ _ _ _ _ => by decide)]
  have e1 : ((⟨0, 1, 0, 0⟩ : CellRange).EndRow + 1 - (⟨0, 1, 0, 0⟩ : CellRange).StartRow).toNat
      = 2 := rfl
  have e2 : ((⟨0, 1, 0, 0⟩ : CellRange).EndCol + 1 - (⟨0, 1, 0, 0⟩ : CellRange).StartCol).toNat
      = 1 := rfl
  have r00 : recordsAt L
      ([[Value.str "x".toList, Value.str "title1".toList, Value.str "t1".toList],
        [Value.str "y".toList]] : Grid ν)
      [[Value.str "x".toList]] sheetName ⟨0, 0, 1, 1⟩ ⟨0, 0, 2, 2⟩ 0 0 = [] := by
    have a1 : inBounds ([[Value.str "x".toList, Value.str "title1".toList,
        Value.str "t1".toList], [Value.str "y".toList]] : Grid ν) 0 0 = true := rfl
    have a2 : inBounds ([[Value.str "x".toList]] : Grid ν) 0 0 = true := rfl
    have a3 : textAt L ([[Value.str "x".toList]] : Grid ν) 0 0 = textAt L
        ([[Value.str "x".toList, Value.str "title1".toList, Value.str "t1".toList],
          [Value.str "y".toList]] : Grid ν) 0 0 := rfl
    unfold recordsAt
    simp only [a1, a2, a3, if_true, ne_eq, not_true_eq_false, if_false]
  have r10 : recordsAt L
      ([[Value.str "x".toList, Value.str "title1".toList, Value.str "t1".toList],
        [Value.str "y".toList]] : Grid ν)
      [[Value.str "x".toList]] sheetName ⟨0, 0, 1, 1⟩ ⟨0, 0, 2, 2⟩ 1 0
      = [⟨sheetName, ⟨1, 0, "y".toList, "t1".toList, "title1".toList⟩, []⟩] := by
    have a1 : inBounds ([[Value.str "x".toList, Value.str "title1".toList,
        Value.str "t1".toList], [Value.str "y".toList]] : Grid ν) 1 0 = true := rfl
    have a2 : inBounds ([[Value.str "x".toList]] : Grid ν) 1 0 = false := rfl
    have b1 : textAt L ([[Value.str "x".toList, Value.str "title1".toList,
        Value.str "t1".toList], [Value.str "y".toList]] : Grid ν) 1 0
        = TrimSpace L "y".toList := rfl
    have b2 : textAt L ([[Value.str "x".toList, Value.str "title1".toList,
        Value.str "t1".toList], [Value.str "y".toList]] : Grid ν) 0 2
        = TrimSpace L "t1".toList := rfl
    have b3 : textAt L ([[Value.str "x".toList, Value.str "title1".toList,
        Value.str "t1".toList], [Value.str "y".toList]] : Grid ν) 0 1
        = TrimSpace L "title1".toList := rfl
    unfold recordsAt
    simp only [a1, a2, if_true, Bool.false_eq_true, if_false, b1, b2, b3, hy, ht, hT]
  unfold spanRecords
  simp only [e1, e2, intsFrom, List.flatMap_cons, List.flatMap_nil, List.append_nil]
  rw [r00]
  have r10b : recordsAt L
      ([[Value.str "x".toList, Value.str "title1".toList, Value.str "t1".toList],
        [Value.str "y".toList]] : Grid ν)
      [[Value.str "x".toList]] sheetName ⟨0, 0, 1, 1⟩ ⟨0, 0, 2, 2⟩ (0 + 1) 0
      = [⟨sheetName, ⟨1, 0, "y".toList, "t1".toList, "title1".toList⟩, []⟩] := r10
  rw [r10b]
  rfl

end ShabChecker
